import Mathlib

/-!
Verification of the WahGPT-Bot navigation core: the `WebSearchService`,
`SearchCommandHandler` and `MessageService` command dispatch, shallowly
embedded from the JavaScript source.  JavaScript `Map` objects are
association lists, JavaScript numbers that may be `NaN` are the `JsNum`
type, strings are Lean `String` with character-list semantics, and the
external collaborators (the Serper search provider and the
node-readability fetch/extract pipeline) are oracle parameters
`String → Except String _`, matching the async calls the service awaits.
-/

namespace WahGPT

/-! ### JavaScript `Map` semantics: insertion-ordered association list -/

/-- A JavaScript `Map` keyed by strings: `set` overwrites in place or
appends, `get` returns the first (unique) binding, `delete` removes it. -/
abbrev Store (β : Type) := List (String × β)

/-- `map.get(k)`, `undefined` as `none`. -/
def storeGet {β : Type} (m : Store β) (k : String) : Option β :=
  match m with
  | [] => none
  | (k', v) :: t => if k' = k then some v else storeGet t k

/-- `map.set(k, v)`: overwrite the existing binding or append a new one. -/
def storeSet {β : Type} (m : Store β) (k : String) (v : β) : Store β :=
  match m with
  | [] => [(k, v)]
  | (k', v') :: t => if k' = k then (k, v) :: t else (k', v') :: storeSet t k v

/-- `map.has(k)`. -/
def storeHas {β : Type} (m : Store β) (k : String) : Bool :=
  (storeGet m k).isSome

/-- `map.delete(k)`. -/
def storeDelete {β : Type} (m : Store β) (k : String) : Store β :=
  m.filter (fun p => p.1 ≠ k)

/-! ### JavaScript numbers that may be `NaN`

`parseInt` on a non-numeric string yields `NaN`; every comparison with
`NaN` is false and arithmetic on it stays `NaN`. -/

/-- A JavaScript number as the navigation code meets it: an integer or
`NaN` (from `parseInt` on non-numeric input). -/
inductive JsNum where
  | nan : JsNum
  | int : Int → JsNum
  deriving DecidableEq, Repr

/-- JavaScript subtraction by a literal: `NaN - k` is `NaN`. -/
def JsNum.sub (a : JsNum) (k : Int) : JsNum :=
  match a with
  | .nan => .nan
  | .int i => .int (i - k)

/-- JavaScript `<` against an integer: false whenever the left side is `NaN`. -/
def JsNum.ltInt (a : JsNum) (k : Int) : Bool :=
  match a with
  | .nan => false
  | .int i => i < k

/-- JavaScript `>=` against an integer: false whenever the left side is `NaN`. -/
def JsNum.geInt (a : JsNum) (k : Int) : Bool :=
  match a with
  | .nan => false
  | .int i => k ≤ i

/-- JavaScript `isNaN`. -/
def JsNum.isNaN : JsNum → Bool
  | .nan => true
  | .int _ => false

/-- String interpolation of a number (template literals): `NaN` prints as
"NaN". -/
def JsNum.render : JsNum → String
  | .nan => "NaN"
  | .int i => toString i

/-! ### JavaScript string helpers, on the character list -/

/-- `s.toLowerCase()` (ASCII case, which is all the command words use). -/
def lowerStr (s : String) : String :=
  ⟨s.data.map Char.toLower⟩

/-- `s.trim()`. -/
def jsTrim (s : String) : String :=
  ⟨((s.data.dropWhile Char.isWhitespace).reverse.dropWhile Char.isWhitespace).reverse⟩

/-- Split a character list at whitespace, keeping the fragments between
runs (empty fragments arise at consecutive separators). -/
def splitWsAux : List Char → List Char → List (List Char)
  | [], acc => [acc.reverse]
  | c :: t, acc =>
      if c.isWhitespace then acc.reverse :: splitWsAux t []
      else splitWsAux t (c :: acc)

/-- `s.split(/\s+/)` for an already-trimmed `s` (the only way the source
calls it): runs of whitespace separate fragments, and the empty string
yields `[""]` as in JavaScript. -/
def jsSplitWs (s : String) : List String :=
  if s.data = [] then [""]
  else ((splitWsAux s.data []).filter (fun l => l ≠ [])).map (fun l => ⟨l⟩)

/-- Decimal value of a digit run. -/
def digitsToNat : List Char → Nat → Nat
  | [], acc => acc
  | c :: t, acc => digitsToNat t (acc * 10 + (c.toNat - 48))

/-- `parseInt(s)` (radix 10): skip leading whitespace, an optional sign,
then the maximal run of digits; no digit means `NaN`.  `parseInt` of
`undefined` (an absent argument) is also `NaN`. -/
def parseIntJs (s : Option String) : JsNum :=
  match s with
  | none => .nan
  | some s =>
      let t := s.data.dropWhile Char.isWhitespace
      let (neg, t) : Bool × List Char :=
        match t with
        | '-' :: r => (true, r)
        | '+' :: r => (false, r)
        | r => (false, r)
      let digits := t.takeWhile Char.isDigit
      if digits = [] then .nan
      else
        let n : Int := Int.ofNat (digitsToNat digits 0)
        .int (if neg then -n else n)

/-- JavaScript string length (`s.length`), as the character count. -/
def strLen (s : String) : Nat := s.data.length

/-- `s.substring(a, b)` for `a ≤ b`: the characters from `a` (inclusive)
to `b` (exclusive), clamped to the string. -/
def jsSubstring (s : String) (a b : Nat) : String :=
  ⟨(s.data.drop a).take (b - a)⟩

/-- `s.startsWith(p)`. -/
def jsStartsWith (s p : String) : Bool :=
  p.data.isPrefixOf s.data

/-- `s.includes(p)`. -/
def jsIncludes (s p : String) : Bool :=
  decide (p.data <:+: s.data)

/-- `s.slice(n)` / `s.substring(n)`: drop the first `n` characters. -/
def jsDrop (s : String) (n : Nat) : String :=
  ⟨s.data.drop n⟩

/-- JavaScript `a || b` on optional strings (`results.answerBox.answer ||
results.answerBox.snippet`): the first truthy value, `undefined` rendered
as a template literal renders it. -/
def jsOrStr (a b : Option String) : String :=
  match a with
  | some s => if s = "" then (b.getD "undefined") else s
  | none => b.getD "undefined"

/-! ### Data model of the web search service

Translated from `WebSearchService` in `src/utils/serializer.js`. -/

/-- One raw organic hit as the Serper provider returns it. -/
structure RawOrganic where
  title : String
  link : String
  snippet : String
  position : Nat
  deriving DecidableEq, Repr

/-- The raw `knowledgeGraph` section. -/
structure RawKnowledge where
  title : String
  type : String
  description : String
  attributes : Option (List (String × String))
  deriving DecidableEq, Repr

/-- The raw `answerBox` section. -/
structure RawAnswerBox where
  title : String
  answer : Option String
  snippet : Option String
  deriving DecidableEq, Repr

/-- One raw `peopleAlsoAsk` entry. -/
structure RawPaa where
  question : String
  answer : String
  deriving DecidableEq, Repr

/-- The raw Serper response body (`response.data`); absent sections are
`none`. -/
structure SearchData where
  organic : Option (List RawOrganic)
  knowledgeGraph : Option RawKnowledge
  answerBox : Option RawAnswerBox
  peopleAlsoAsk : Option (List RawPaa)
  deriving DecidableEq, Repr

/-- A formatted organic result (`formatSearchResults` stamps `id` and
`type`). -/
structure OrganicResult where
  id : Nat
  title : String
  link : String
  snippet : String
  position : Nat
  type : String
  deriving DecidableEq, Repr

/-- The formatted result set stored per user. -/
structure Formatted where
  organic : List OrganicResult
  knowledge : Option RawKnowledge
  answerBox : Option RawAnswerBox
  peopleAlsoAsk : List RawPaa
  deriving DecidableEq, Repr

/-- One extracted link (`{ text, url }`). -/
structure LinkEntry where
  text : String
  url : String
  deriving DecidableEq, Repr

/-- The processed webpage content `processArticle` returns: title, site
name, first-line excerpt, truncated text, full text, source URL and the
capped link list. -/
structure Content where
  title : String
  siteName : String
  excerpt : String
  textContent : String
  fullTextContent : String
  url : String
  links : List LinkEntry
  deriving DecidableEq, Repr

/-- The per-user record `currentWebpageContent` stores: `{ url, content }`. -/
structure StoredContent where
  url : String
  content : Content
  deriving DecidableEq, Repr

/-- The `WebSearchService` configuration (defaults from the constructor;
`src/index.js` overrides `contentSummaryLength` to 1500). -/
structure WssConfig where
  serperApiKey : Option String
  searchResultsLimit : Nat := 5
  contentSummaryLength : Nat := 1000
  deriving DecidableEq, Repr

/-- The `WebSearchService` mutable state: its three per-user `Map`s. -/
structure WssState where
  currentSearchResults : Store Formatted
  currentWebpageContent : Store StoredContent
  contentPositions : Store Nat
  deriving DecidableEq, Repr

/-- The empty service state (fresh constructor). -/
def WssState.empty : WssState :=
  { currentSearchResults := [], currentWebpageContent := [], contentPositions := [] }

/-! ### WebSearchService operations -/

namespace WebSearchService

/-- `formatSearchResults(searchData)`: truncate organic hits to the
configured limit and stamp ids `1..n` in provider order; map the optional
sections defensively. -/
def formatSearchResults (cfg : WssConfig) (searchData : SearchData) : Formatted :=
  { organic :=
      match searchData.organic with
      | none => []
      | some l =>
          (l.take cfg.searchResultsLimit).enum.map fun p =>
            { id := p.1 + 1, title := p.2.title, link := p.2.link,
              snippet := p.2.snippet, position := p.2.position, type := "organic" }
    knowledge := searchData.knowledgeGraph.map fun k =>
      { title := k.title, type := k.type, description := k.description,
        attributes := k.attributes }
    answerBox := searchData.answerBox.map fun a =>
      { title := a.title, answer := a.answer, snippet := a.snippet }
    peopleAlsoAsk :=
      match searchData.peopleAlsoAsk with
      | none => []
      | some l => (l.take 3).map fun p => { question := p.question, answer := p.answer } }

/-- `searchWeb(query, userId)`: fail on a missing key, call the provider
(an oracle `search`), format, and replace the user's stored result set.
The `catch` wraps every failure message. -/
def searchWeb (cfg : WssConfig) (search : String → Except String SearchData)
    (query userId : String) (st : WssState) : Except String (Formatted × WssState) :=
  if cfg.serperApiKey.isNone then
    .error ("Failed to search the web: Serper API key is not configured. Please set the SERPER_API_KEY environment variable.")
  else
    match search query with
    | .error e => .error ("Failed to search the web: " ++ e)
    | .ok data =>
        let formattedResults := formatSearchResults cfg data
        .ok (formattedResults,
          { st with currentSearchResults :=
              storeSet st.currentSearchResults userId formattedResults })

/-- `getSearchResultById(userId, resultId)`: find the stored organic entry
whose `id` equals `resultId`, `null` when absent. -/
def getSearchResultById (userId : String) (resultId : Int) (st : WssState) :
    Option OrganicResult :=
  match storeGet st.currentSearchResults userId with
  | none => none
  | some results => results.organic.find? fun r => (r.id : Int) = resultId

/-- `browseWebpage(url, userId)`: fetch and extract the page (the
node-readability plus `processArticle` pipeline, an oracle `fetch`), then
replace the user's stored page content.  `processArticle` always sets the
content's `url` to the browsed URL.  The pagination cursor in
`contentPositions` is NOT touched. -/
def browseWebpage (fetch : String → Except String Content)
    (url userId : String) (st : WssState) : Except String (Content × WssState) :=
  match fetch url with
  | .error e => .error ("Failed to browse the webpage: " ++ e)
  | .ok c =>
      let extracted := { c with url := url }
      let stored : StoredContent := { url := url, content := extracted }
      .ok (extracted,
        { st with currentWebpageContent :=
            storeSet st.currentWebpageContent userId stored })

/-- The ways `followLink(userId, linkId)` can leave its body. -/
inductive LinkOutcome where
  /-- `throw new Error('No current webpage content available')`. -/
  | noContent : LinkOutcome
  /-- `throw new Error('No links available on this page')`. -/
  | noLinks : LinkOutcome
  /-- The range validation error, carrying `links.length`. -/
  | invalidRange : Nat → LinkOutcome
  /-- `linkId - 1` was `NaN`: both range tests are false, and the
  `links[index]` lookup yields `undefined`, so reading `link.text` throws
  a `TypeError`. -/
  | undefinedLookup : LinkOutcome
  /-- The `browseWebpage` call failed. -/
  | browseFailed : String → LinkOutcome
  /-- Success: the new page content and service state. -/
  | ok : Content → WssState → LinkOutcome
  deriving Repr

/-- `followLink(userId, linkId)`: require stored content and a non-empty
link list, range-check `linkId - 1` with JavaScript comparisons (false on
`NaN`), then re-browse the resolved URL. -/
def followLink (fetch : String → Except String Content)
    (userId : String) (linkId : JsNum) (st : WssState) : LinkOutcome :=
  match storeGet st.currentWebpageContent userId with
  | none => .noContent
  | some userContent =>
      let links := userContent.content.links
      if links.length = 0 then .noLinks
      else
        let index := linkId.sub 1
        if index.ltInt 0 || index.geInt links.length then
          .invalidRange links.length
        else
          match index with
          | .nan => .undefinedLookup
          | .int i =>
              let link := links.getD i.toNat { text := "", url := "" }
              match browseWebpage fetch link.url userId st with
              | .error e => .browseFailed e
              | .ok (c, st') => .ok c st'

/-- `getMoreContent(userId)`: initialise the cursor to
`contentSummaryLength` on first use, return the next chunk of
`fullTextContent` and advance the cursor by the chunk size; an exhausted
cursor returns the empty string and never resets. -/
def getMoreContent (cfg : WssConfig) (userId : String) (st : WssState) :
    String × WssState :=
  match storeGet st.currentWebpageContent userId with
  | none => ("No current webpage content available", st)
  | some userContent =>
      let st1 :=
        if storeHas st.contentPositions userId then st
        else { st with contentPositions :=
                storeSet st.contentPositions userId cfg.contentSummaryLength }
      let currentPosition := (storeGet st1.contentPositions userId).getD 0
      let nextPosition := currentPosition + cfg.contentSummaryLength
      let fullContent := userContent.content.fullTextContent
      if strLen fullContent ≤ currentPosition then ("", st1)
      else
        (jsSubstring fullContent currentPosition (min nextPosition (strLen fullContent)),
         { st1 with contentPositions :=
             storeSet st1.contentPositions userId nextPosition })

/-- `clearUserContent(userId)`: drop all three per-user entries.  No
command handler ever calls this. -/
def clearUserContent (userId : String) (st : WssState) : WssState :=
  { currentSearchResults := storeDelete st.currentSearchResults userId
    currentWebpageContent := storeDelete st.currentWebpageContent userId
    contentPositions := storeDelete st.contentPositions userId }

/-- `formatSearchResultsMessage(results)`: the WhatsApp-ready text. -/
def formatSearchResultsMessage (results : Formatted) : String :=
  let m0 := "*📊 Search Results*\n\n"
  let m1 := m0 ++
    (match results.answerBox with
     | none => ""
     | some ab => "*Quick Answer:*\n" ++ jsOrStr ab.answer ab.snippet ++ "\n\n")
  let m2 := m1 ++
    (match results.knowledge with
     | none => ""
     | some k =>
         "*" ++ k.title ++ "* (" ++ k.type ++ ")\n" ++ k.description ++ "\n\n" ++
         (match k.attributes with
          | none => ""
          | some attrs =>
              (attrs.foldl (fun acc kv => acc ++ "- " ++ kv.1 ++ ": " ++ kv.2 ++ "\n") "")
                ++ "\n"))
  let m3 := m2 ++ "*Web Results:*\n"
  let m4 := m3 ++
    (if results.organic.length > 0 then
      results.organic.foldl (fun acc r =>
        acc ++ "*" ++ toString r.id ++ ".* " ++ r.title ++ "\n" ++
        r.snippet ++ "\n" ++ "Type *!open " ++ toString r.id ++ "* to read more\n\n") ""
     else "No results found.\n\n")
  let m5 := m4 ++
    (if results.peopleAlsoAsk.length > 0 then
      "*People also ask:*\n" ++
        results.peopleAlsoAsk.foldl (fun acc item => acc ++ "- " ++ item.question ++ "\n") ""
     else "")
  m5 ++ "\n*Commands:*\n" ++ "- *!search [query]* - Search for something new\n" ++
    "- *!open [number]* - Open a search result\n" ++ "- *!back* - Return to search results\n"

/-- `formatWebpageContentMessage(content)`: the WhatsApp-ready page view,
ending with the literal hint that `!back` returns to the search results. -/
def formatWebpageContentMessage (content : Content) : String :=
  let m0 := "*📄 " ++ content.title ++ "*\n"
  let m1 := m0 ++ (if content.siteName ≠ "" then "Source: " ++ content.siteName ++ "\n" else "")
  let m2 := m1 ++ "URL: " ++ content.url ++ "\n\n"
  let m3 := m2 ++ (if content.excerpt ≠ "" then "*Summary:* " ++ content.excerpt ++ "\n\n" else "")
  let m4 := m3 ++ content.textContent
  let m5 := m4 ++
    (if content.links.length > 0 then
      "\n\n*📌 Navigatable Links:*\n" ++
      "(" ++ toString content.links.length ++ " links available - use !link [number] to navigate)\n" ++
      ((content.links.take 10).enum.foldl (fun acc p =>
        let linkText := if strLen p.2.text > 40 then jsSubstring p.2.text 0 37 ++ "..." else p.2.text
        acc ++ "*" ++ toString (p.1 + 1) ++ ".* " ++ linkText ++ "\n") "")
     else "\n\n*No navigatable links available on this page*\n")
  m5 ++ "\n*Commands:*\n" ++ "- *!back* - Return to search results\n" ++
    "- *!link [number]* - Follow a link on this page\n" ++
    "- *!more* - Show more content\n" ++ "- *!search [query]* - Search for something new\n"

end WebSearchService

/-! ### Session state and the search command handler

Translated from `SearchCommandHandler`.  JavaScript stores the mode and
last action as strings; absent object fields are `none`. -/

/-- One user's session object in the `userStates` map. -/
structure UserState where
  mode : String
  lastAction : Option String := none
  query : Option String := none
  currentUrl : Option String := none
  resultId : Option Int := none
  deriving DecidableEq, Repr

/-- The whole mutable state the handler touches: the `userStates` map and
the web search service. -/
structure SysState where
  userStates : Store UserState
  wss : WssState
  deriving DecidableEq, Repr

/-- The fresh `{ mode: chat }` session object the handlers store on
initialisation and on `exit`. -/
def chatUserState : UserState := { mode := "chat" }

/-- The fresh application state. -/
def SysState.empty : SysState :=
  { userStates := [], wss := WssState.empty }

/-- The external collaborators: the Serper search call and the
node-readability fetch/extract pipeline. -/
structure Ext where
  search : String → Except String SearchData
  fetch : String → Except String Content

/-- JavaScript truthiness of an optional string field. -/
def optTruthy : Option String → Bool
  | none => false
  | some s => s ≠ ""

namespace SearchCommandHandler

open WebSearchService

/-- `handleWebSearch(sender, query)`: notice, search, store results, set
the session to browse mode with the query remembered, send the list.  On
failure the session is untouched. -/
def handleWebSearch (cfg : WssConfig) (ext : Ext) (sender query : String)
    (st : SysState) : List String × SysState :=
  let notice := "🔍 Searching for: \"" ++ query ++ "\"..."
  match searchWeb cfg ext.search query sender st.wss with
  | .error e => ([notice, "Sorry, I encountered an error while searching: " ++ e], st)
  | .ok (results, wss') =>
      let newState : UserState :=
        { mode := "browse", lastAction := some "search", query := some query }
      ([notice, formatSearchResultsMessage results],
       { userStates := storeSet st.userStates sender newState, wss := wss' })

/-- `handleOpenResult(sender, resultId)`: look the result up, browse it,
and replace the session object with `{ mode, lastAction, currentUrl,
resultId }` — the stored `query` is not carried over. -/
def handleOpenResult (cfg : WssConfig) (ext : Ext) (sender : String)
    (resultId : Int) (st : SysState) : List String × SysState :=
  match getSearchResultById sender resultId st.wss with
  | none =>
      (["Sorry, I couldn't find that search result. Please try searching again."], st)
  | some result =>
      let opening := "📄 Opening: \"" ++ result.title ++ "\"..."
      match browseWebpage ext.fetch result.link sender st.wss with
      | .error e => ([opening, "Sorry, I encountered an error opening that page: " ++ e], st)
      | .ok (content, wss') =>
          let newState : UserState :=
            { mode := "browse", lastAction := some "open",
              currentUrl := some result.link, resultId := some resultId }
          ([opening, formatWebpageContentMessage content],
           { userStates := storeSet st.userStates sender newState, wss := wss' })

/-- `handleBackCommand(sender)`: with no session, initialise to chat and
report nothing to go back to; at the search results, say so; with a
truthy stored query, re-run the search; otherwise report that no search
results are available and reset to chat. -/
def handleBackCommand (cfg : WssConfig) (ext : Ext) (sender : String)
    (st : SysState) : List String × SysState :=
  match storeGet st.userStates sender with
  | none =>
      (["There's no previous state to go back to."],
       { st with userStates := storeSet st.userStates sender { mode := "chat" } })
  | some userState =>
      if userState.lastAction = some "search" then
        (["You're already at the search results."], st)
      else if optTruthy userState.query then
        handleWebSearch cfg ext sender (userState.query.getD "") st
      else
        (["No search results available. Please try a new search."],
         { st with userStates := storeSet st.userStates sender { mode := "chat" } })

/-- The user-facing message of each `followLink` failure (the `catch`
reads `error.message`; the `TypeError` text is the V8 one for reading
`.text` of `undefined`). -/
def linkErrorMessage : LinkOutcome → String
  | .noContent => "No current webpage content available"
  | .noLinks => "No links available on this page"
  | .invalidRange len =>
      "Invalid link number. Please use a number between 1 and " ++ toString len
  | .undefinedLookup => "Cannot read properties of undefined (reading 'text')"
  | .browseFailed e => e
  | .ok _ _ => ""

/-- `handleLinkCommand(sender, linkId)`: follow the link, then update the
session by spreading the previous object (`{...userState, lastAction:
'link', currentUrl}`), so `query` and `resultId` survive.  A spread of an
absent session (unreachable through `handleDirectMessage`, which always
initialises one) is modelled with mode "undefined". -/
def handleLinkCommand (cfg : WssConfig) (ext : Ext) (sender : String)
    (linkId : JsNum) (st : SysState) : List String × SysState :=
  let following := "🔗 Following link #" ++ linkId.render ++ "..."
  match followLink ext.fetch sender linkId st.wss with
  | .ok content wss' =>
      let base := (storeGet st.userStates sender).getD { mode := "undefined" }
      let newState := { base with lastAction := some "link", currentUrl := some content.url }
      ([following, formatWebpageContentMessage content],
       { userStates := storeSet st.userStates sender newState, wss := wss' })
  | outcome => ([following, "Sorry, I couldn't follow that link: " ++ linkErrorMessage outcome], st)

/-- `handleMoreCommand(sender)`: pull the next chunk; an empty chunk is
reported as no more content.  The service state advances either way. -/
def handleMoreCommand (cfg : WssConfig) (sender : String) (st : SysState) :
    List String × SysState :=
  let res := getMoreContent cfg sender st.wss
  if res.1 = "" then
    (["Sorry, there's no more content available for this page."], { st with wss := res.2 })
  else
    (["*More Content:*\n\n" ++ res.1 ++ "\n\n(Type *!more* again for additional content)"],
     { st with wss := res.2 })

/-- `handleSummarizeCommand(sender)`: requires browse mode with a current
URL, then forwards a command-shaped summarisation request through the
outbound channel. -/
def handleSummarizeCommand (cfg : WssConfig) (sender : String) (st : SysState) :
    List String × SysState :=
  let userState := storeGet st.userStates sender
  let ok := match userState with
    | none => false
    | some us => us.mode = "browse" && optTruthy us.currentUrl
  if ok = false then
    (["Please open a webpage first before using the summarize command."], st)
  else
    let generating := "📝 Generating summary of current webpage..."
    match storeGet st.wss.currentWebpageContent sender with
    | none => ([generating, "Sorry, I couldn't retrieve the current webpage content."], st)
    | some content =>
        let fullContent :=
          if content.content.fullTextContent ≠ "" then content.content.fullTextContent
          else content.content.textContent
        ([generating,
          "!summarize_webpage Please provide a concise summary of the following webpage content. Focus on the main points and key information:\n\nTitle: "
            ++ content.content.title ++ "\n\nContent: " ++ fullContent], st)

/-- `handleCommand(sender, command, args)`: the navigation command
switch.  Returns whether the command was handled, the outbound messages,
and the new state. -/
def handleCommand (cfg : WssConfig) (ext : Ext) (sender command : String)
    (args : List String) (st : SysState) : Bool × List String × SysState :=
  let c := lowerStr command
  if c = "search" then
    let query := jsTrim (String.intercalate " " args)
    if query = "" then
      (true, ["Please provide a search query. For example: !search climate change"], st)
    else
      let r := handleWebSearch cfg ext sender query st
      (true, r.1, r.2)
  else if c = "open" then
    match parseIntJs args.head? with
    | .nan => (true, ["Please specify a valid result number to open. For example: !open 2"], st)
    | .int i =>
        let r := handleOpenResult cfg ext sender i st
        (true, r.1, r.2)
  else if c = "back" then
    let r := handleBackCommand cfg ext sender st
    (true, r.1, r.2)
  else if c = "link" then
    match parseIntJs args.head? with
    | .nan => (true, ["Please specify a valid link number to follow. For example: !link 2"], st)
    | .int i =>
        let r := handleLinkCommand cfg ext sender (.int i) st
        (true, r.1, r.2)
  else if c = "more" then
    let r := handleMoreCommand cfg sender st
    (true, r.1, r.2)
  else if c = "summarize" then
    let r := handleSummarizeCommand cfg sender st
    (true, r.1, r.2)
  else if c = "exit" then
    (true, ["Exited search mode. Back to normal chat."],
     { st with userStates := storeSet st.userStates sender { mode := "chat" } })
  else (false, [], st)

/-- `handleDirectMessage(sender, message)`: initialise a missing session,
dispatch a `!`-prefixed command, else interpret browse-mode shorthand
("back", "more", "link n", "exit", anything else a new search), else a
leading "search " as a search; otherwise not handled. -/
def handleDirectMessage (cfg : WssConfig) (ext : Ext) (sender message : String)
    (st : SysState) : Bool × List String × SysState :=
  let st0 :=
    if storeHas st.userStates sender then st
    else { st with userStates := storeSet st.userStates sender { mode := "chat" } }
  let userState := (storeGet st0.userStates sender).getD { mode := "chat" }
  if jsStartsWith message "!" then
    let parts := jsSplitWs (jsTrim (jsDrop message 1))
    handleCommand cfg ext sender (parts.headD "") parts.tail st0
  else if userState.mode = "browse" then
    if lowerStr message = "back" then
      let r := handleBackCommand cfg ext sender st0
      (true, r.1, r.2)
    else if lowerStr message = "more" then
      let r := handleMoreCommand cfg sender st0
      (true, r.1, r.2)
    else if jsStartsWith (lowerStr message) "link " then
      let linkNumber := parseIntJs (some (jsTrim (jsDrop message 5)))
      let r := handleLinkCommand cfg ext sender linkNumber st0
      (true, r.1, r.2)
    else if lowerStr message = "exit" then
      (true, ["Exited search mode. Back to normal chat."],
       { st0 with userStates := storeSet st0.userStates sender { mode := "chat" } })
    else
      let r := handleWebSearch cfg ext sender message st0
      (true, r.1, r.2)
  else if jsStartsWith (lowerStr message) "search " then
    let r := handleWebSearch cfg ext sender (jsTrim (jsDrop message 7)) st0
    (true, r.1, r.2)
  else (false, [], st0)

end SearchCommandHandler

/-! ### The wired MessageService command path

Translated from `MessageService` in `src/utils/serializer.js`; this is
the service `src/index.js` actually constructs.  Its command switch knows
only help, clear, ping, provider and system. -/

namespace MessageService

/-- The MessageService options (`prefixCommands: true, commandPrefix:
'!'`, as `src/index.js` passes them). -/
structure MsConfig where
  prefixCommands : Bool := true
  commandPrefix : String := "!"
  deriving DecidableEq, Repr

/-- Which branch of `MessageService.handleCommand`'s switch runs.  The
help/clear/ping/provider/system branches answer through the LLM service
or fixed texts; everything else falls to the default branch. -/
inductive Branch where
  | help : Branch
  | clear : Branch
  | ping : Branch
  | provider : List String → Branch
  | system : List String → Branch
  | unknown : String → Branch
  deriving DecidableEq, Repr

/-- The `switch (cmd.toLowerCase())` of `MessageService.handleCommand`:
five cases, everything else the default branch. -/
def commandCase (cmd : String) (args : List String) : Branch :=
  if lowerStr cmd = "help" then .help
  else if lowerStr cmd = "clear" then .clear
  else if lowerStr cmd = "ping" then .ping
  else if lowerStr cmd = "provider" then .provider args
  else if lowerStr cmd = "system" then .system args
  else .unknown cmd

/-- `MessageService.handleCommand`: split the command text on whitespace
(`const [cmd, ...args] = command.trim().split(/\s+/)`), then dispatch on
the lowercased head word. -/
def commandSwitch (command : String) : Branch :=
  let parts := jsSplitWs (jsTrim command)
  commandCase (parts.headD "") parts.tail

/-- The default branch's fixed reply. -/
def unknownReply (cfg : MsConfig) (cmd : String) : String :=
  "Unknown command: " ++ cmd ++ ". Type " ++ cfg.commandPrefix ++ "help for available commands."

/-- Where `MessageService.handleMessage` routes an inbound text. -/
inductive Route where
  | command : Branch → Route
  | llm : String → Route
  deriving DecidableEq, Repr

/-- `handleMessage(sender, message)`: a prefix-marked message goes to the
command switch (prefix stripped); everything else goes to the LLM. -/
def handleMessage (cfg : MsConfig) (message : String) : Route :=
  if cfg.prefixCommands && jsStartsWith message cfg.commandPrefix then
    .command (commandSwitch (jsDrop message (strLen cfg.commandPrefix)))
  else .llm message

end MessageService

/-! ### The link extractor

Translated from `WebSearchService.extractLinks`.  The cheerio document is
modelled as the element lists the function iterates: the anchor elements,
the Wikipedia citation markers (each carrying the `a.external` element the
reference-list DOM lookup finds for it), and the reference-list external
links.  URL resolution (`new URL(href, baseUrl).href`) is a parameter;
`resolveUrlModel` below instantiates it. -/

/-- An `<a>` element as the main loop reads it: `href`, visible text and
the `title`/`aria-label`/`alt` fallback attributes. -/
structure Anchor where
  href : Option String
  text : String
  titleAttr : Option String
  ariaLabel : Option String
  altAttr : Option String
  deriving DecidableEq, Repr

/-- A Wikipedia citation marker (`sup.reference`): the href of its first
inner link, and the `a.external` element found in the reference list for
that fragment id (`none` when the DOM lookup finds nothing). -/
structure CitationRef where
  linkHref : Option String
  externalHref : Option String
  externalText : String
  deriving DecidableEq, Repr

/-- A `.references a.external` element. -/
structure RefExternal where
  href : Option String
  text : String
  deriving DecidableEq, Repr

/-- The parsed document, as the element lists `extractLinks` iterates. -/
structure DocModel where
  anchors : List Anchor
  citations : List CitationRef
  referenceLinks : List RefExternal
  deriving DecidableEq, Repr

/-- The character list of a string, lowercased (regex `/i` matching). -/
def lowerChars (s : String) : List Char :=
  s.data.map Char.toLower

/-- Case-insensitive `^pre` regex test (`pre` given in lowercase). -/
def startsWithLower (s pre : String) : Bool :=
  pre.data.isPrefixOf (lowerChars s)

/-- The `fileExtensions` alternation of the filter regex. -/
def fileExtensions : List String :=
  ["jpg", "jpeg", "png", "gif", "bmp", "svg", "webp", "pdf", "doc", "docx",
   "xls", "xlsx", "ppt", "pptx", "zip", "rar", "tar", "gz", "mp3", "mp4",
   "avi", "mov", "wav", "flac", "ogg"]

/-- The case-insensitive `\.(jpg|…)$` test. -/
def hasFilteredExt (s : String) : Bool :=
  fileExtensions.any fun ext => decide (('.' :: ext.data) <:+ lowerChars s)

/-- `shouldExcludeUrl(url)`: falsy URL, a non-navigable scheme, the empty
fragment `#`, or a filtered file extension. -/
def shouldExcludeUrl (url : String) : Bool :=
  if url = "" then true
  else if startsWithLower url "javascript:" then true
  else if startsWithLower url "mailto:" then true
  else if startsWithLower url "tel:" then true
  else if startsWithLower url "sms:" then true
  else if url = "#" then true
  else if startsWithLower url "data:" then true
  else if startsWithLower url "blob:" then true
  else hasFilteredExt url

/-- `url.split('#')[0]`. -/
def stripFragment (s : String) : String :=
  ⟨s.data.takeWhile (fun c => c ≠ '#')⟩

/-- A character a WHATWG URL scheme may contain after its first letter. -/
def isSchemeChar (c : Char) : Bool :=
  c.isAlphanum || c = '+' || c = '-' || c = '.'

/-- Whether `s` carries its own URL scheme (`letter(scheme-chars)*:`). -/
def hasUrlScheme (s : String) : Bool :=
  let pre := s.data.takeWhile (fun c => c ≠ ':')
  decide (pre.length < s.data.length) &&
    (match pre with
     | [] => false
     | c :: rest => c.isAlpha && rest.all isSchemeChar)

/-- `"https://"` or `"http://"` when it prefixes `b`. -/
def schemeHttpPrefix (b : List Char) : Option (List Char) :=
  if List.isPrefixOf ("https://".data) b then some ("https://".data)
  else if List.isPrefixOf ("http://".data) b then some ("http://".data)
  else none

/-- Cut a path after its last `/`. -/
def dropAfterLastSlash (l : List Char) : List Char :=
  (l.reverse.dropWhile (fun c => c ≠ '/')).reverse

/-- The base URL's characters after its scheme part. -/
def baseRest (base : String) (sch : List Char) : List Char :=
  (stripFragment base).data.drop sch.length

/-- The base URL's host: the scheme-free part up to the first slash. -/
def baseHost (base : String) (sch : List Char) : List Char :=
  (baseRest base sch).takeWhile (fun c => c ≠ '/')

/-- The base URL's path (empty or starting with a slash). -/
def basePath (base : String) (sch : List Char) : List Char :=
  (baseRest base sch).drop (baseHost base sch).length

/-- The base URL's directory: its path cut after the last slash (the
root for an empty path); always ends in a slash. -/
def baseDir (base : String) (sch : List Char) : List Char :=
  if basePath base sch = [] then ['/'] else dropAfterLastSlash (basePath base sch)

/-- Model of WHATWG `new URL(href, baseUrl).href` on the reference forms
the extractor meets: an href with its own scheme passes through
unnormalised; fragment, protocol-relative, root-relative and
path-relative references resolve against an http(s) base in the standard
way; anything else (no http(s) base, empty href) is `none`, which the
extractor treats as `new URL` throwing. -/
def resolveUrlModel (base href : String) : Option String :=
  if href = "" then none
  else if hasUrlScheme href then some href
  else
    match schemeHttpPrefix ((stripFragment base).data) with
    | none => none
    | some sch =>
        if List.isPrefixOf ['/', '/'] href.data then
          some ⟨sch.takeWhile (fun c => c ≠ ':') ++ [':'] ++ href.data⟩
        else if List.isPrefixOf ['#'] href.data then
          some ⟨(stripFragment base).data ++ href.data⟩
        else if List.isPrefixOf ['/'] href.data then
          some ⟨sch ++ baseHost base sch ++ href.data⟩
        else
          some ⟨sch ++ baseHost base sch ++ baseDir base sch ++ href.data⟩

/-- Collapse each whitespace run to one space (`replace(/\s+/g, ' ')`);
the flag says whether the previous character was whitespace. -/
def collapseWsAux : List Char → Bool → List Char
  | [], _ => []
  | c :: t, prevWs =>
      if c.isWhitespace then
        if prevWs then collapseWsAux t true else ' ' :: collapseWsAux t true
      else c :: collapseWsAux t false

/-- JavaScript `a || b || …` over optional attribute values, with a
default for the end of the chain. -/
def firstTruthy : List (Option String) → String → String
  | [], dflt => dflt
  | o :: t, dflt =>
      match o with
      | some s => if s ≠ "" then s else firstTruthy t dflt
      | none => firstTruthy t dflt

/-- `href.replace(/^https?:\/\//, '').split('/')[0] || 'Link'` (the
scheme strip is case-sensitive, as in the source regex). -/
def hostFallback (href : String) : String :=
  let stripped :=
    if List.isPrefixOf ("https://".data) href.data then href.data.drop 8
    else if List.isPrefixOf ("http://".data) href.data then href.data.drop 7
    else href.data
  let h := stripped.takeWhile (fun c => c ≠ '/')
  if h = [] then "Link" else ⟨h⟩

/-- The extractor's running state: the collected links and the `seenUrls`
set (a list with membership). -/
structure ExtractState where
  links : List LinkEntry
  seenUrls : List String
  deriving DecidableEq, Repr

/-- One iteration of the `$('a').each` loop: filter the raw href, resolve
it, skip same-page fragments and already-seen URLs, build the display
text with its fallbacks, and append the entry. -/
def anchorStep (resolve : String → String → Option String) (baseUrl : String)
    (s : ExtractState) (a : Anchor) : ExtractState :=
  match a.href with
  | none => s
  | some href =>
      if href = "" then s
      else if shouldExcludeUrl href then s
      else
        match resolve baseUrl href with
        | none => s
        | some absoluteUrl =>
            if stripFragment absoluteUrl = stripFragment baseUrl && jsStartsWith href "#" then s
            else if s.seenUrls.contains absoluteUrl then s
            else
              let t0 := jsTrim a.text
              let t1 :=
                if t0 = "" || strLen t0 < 2 then
                  firstTruthy [a.titleAttr, a.ariaLabel, a.altAttr] (hostFallback href)
                else t0
              let linkText := jsTrim ⟨collapseWsAux t1.data false⟩
              { links := s.links ++ [{ text := linkText, url := absoluteUrl }],
                seenUrls := absoluteUrl :: s.seenUrls }

/-- One iteration of the Wikipedia citation loop: the external reference
link is resolved and appended, but the `seenUrls` entry records the RAW
`externalHref`, not the resolved URL. -/
def citationStep (resolve : String → String → Option String) (baseUrl : String)
    (idx : Nat) (s : ExtractState) (c : CitationRef) : ExtractState :=
  match c.linkHref with
  | none => s
  | some href =>
      if href = "" then s
      else
        match c.externalHref with
        | none => s
        | some externalHref =>
            if externalHref = "" then s
            else if shouldExcludeUrl externalHref then s
            else if s.seenUrls.contains externalHref then s
            else
              match resolve baseUrl externalHref with
              | none => s
              | some resolved =>
                  let citationText :=
                    if jsTrim c.externalText ≠ "" then jsTrim c.externalText
                    else "Citation " ++ toString (idx + 1)
                  { links := s.links ++ [{ text := citationText, url := resolved }],
                    seenUrls := externalHref :: s.seenUrls }

/-- One iteration of the `.references a.external` loop: both the raw href
and the resolved URL are checked against `seenUrls`, and the resolved URL
is recorded. -/
def referenceStep (resolve : String → String → Option String) (baseUrl : String)
    (idx : Nat) (s : ExtractState) (r : RefExternal) : ExtractState :=
  match r.href with
  | none => s
  | some href =>
      if href = "" then s
      else if shouldExcludeUrl href then s
      else if s.seenUrls.contains href then s
      else
        match resolve baseUrl href with
        | none => s
        | some absoluteUrl =>
            if s.seenUrls.contains absoluteUrl then s
            else
              let linkText :=
                if jsTrim r.text ≠ "" then jsTrim r.text
                else "Reference " ++ toString (idx + 1)
              { links := s.links ++ [{ text := linkText, url := absoluteUrl }],
                seenUrls := absoluteUrl :: s.seenUrls }

/-- `extractLinks(document, baseUrl)`: the anchor loop, then — only when
the base URL contains "wikipedia.org" — the citation and reference-list
loops. -/
def extractLinks (resolve : String → String → Option String)
    (doc : DocModel) (baseUrl : String) : List LinkEntry :=
  let s1 := doc.anchors.foldl (anchorStep resolve baseUrl) { links := [], seenUrls := [] }
  let s2 :=
    if jsIncludes baseUrl "wikipedia.org" then
      let sC := doc.citations.enum.foldl
        (fun s p => citationStep resolve baseUrl p.1 s p.2) s1
      doc.referenceLinks.enum.foldl
        (fun s p => referenceStep resolve baseUrl p.1 s p.2) sC
    else s1
  s2.links

/-! ### Iterated `more` calls (for the pagination claims) -/

/-- The service state after `n` consecutive `getMoreContent` calls for
one user. -/
def moreIter (cfg : WssConfig) (uid : String) (st : WssState) : Nat → WssState
  | 0 => st
  | n + 1 => (WebSearchService.getMoreContent cfg uid (moreIter cfg uid st n)).2

/-- The text the `(n+1)`-st `getMoreContent` call returns. -/
def moreOut (cfg : WssConfig) (uid : String) (st : WssState) (n : Nat) : String :=
  (WebSearchService.getMoreContent cfg uid (moreIter cfg uid st n)).1

/-- The number of non-empty chunks `getMoreContent` can deliver for a
full text of length `L` with chunk size and initial offset `C`: the
natural-number form of `⌈(L − C) / C⌉`. -/
def chunkCount (L C : Nat) : Nat :=
  (L - C + (C - 1)) / C

/-! ### Concrete fixtures for witnesses and counterexamples

A five-result provider, two small pages, and the states a user "u"
reaches by actually sending commands through `handleDirectMessage`. -/

namespace Fx

/-- A test configuration: key present, limit 5, summary length 2 (the
summary length is injectable; `src/index.js` passes its own value). -/
def cfg : WssConfig :=
  { serperApiKey := some "key", searchResultsLimit := 5, contentSummaryLength := 2 }

/-- The i-th raw organic hit. -/
def raw (i : Nat) : RawOrganic :=
  { title := "T" ++ toString i, link := "u" ++ toString i,
    snippet := "s" ++ toString i, position := i }

/-- A provider response with five organic hits. -/
def sdata : SearchData :=
  { organic := some [raw 1, raw 2, raw 3, raw 4, raw 5],
    knowledgeGraph := none, answerBox := none, peopleAlsoAsk := none }

/-- A small page: full text `s`, two outgoing links. -/
def page (s : String) : Content :=
  { title := "pg", siteName := "", excerpt := "", textContent := "ab",
    fullTextContent := s, url := "",
    links := [{ text := "L1", url := "x1" }, { text := "L2", url := "x2" }] }

/-- External world: the search always answers `sdata`; fetching `x2`
yields the page "ABCDEFGH", every other URL the page "abcdefgh". -/
def ext : Ext :=
  { search := fun _ => .ok sdata,
    fetch := fun u => .ok (page (if u = "x2" then "ABCDEFGH" else "abcdefgh")) }

/-- State after `!search climate change`. -/
def afterSearch : SysState :=
  (SearchCommandHandler.handleDirectMessage cfg ext "u" "!search climate change" SysState.empty).2.2

/-- State after a further `!open 3`. -/
def afterOpen : SysState :=
  (SearchCommandHandler.handleDirectMessage cfg ext "u" "!open 3" afterSearch).2.2

/-- State after a further `!more` (cursor advanced to 4). -/
def afterMore : SysState :=
  (SearchCommandHandler.handleDirectMessage cfg ext "u" "!more" afterOpen).2.2

/-- State after a further `!link 2` (a new page view through
`browseWebpage`). -/
def afterLink : SysState :=
  (SearchCommandHandler.handleDirectMessage cfg ext "u" "!link 2" afterMore).2.2

/-- A Wikipedia page URL. -/
def wikiBase : String := "https://en.wikipedia.org/wiki/Page"

/-- A document whose citation marker cites, through the reference list,
the same relative href "x" that an ordinary anchor already carries. -/
def wikiDoc : DocModel :=
  { anchors := [{ href := some "x", text := "anchor text", titleAttr := none,
                  ariaLabel := none, altAttr := none }],
    citations := [{ linkHref := some "#cite1", externalHref := some "x",
                    externalText := "cite" }],
    referenceLinks := [] }

/-- A non-Wikipedia base URL. -/
def plainBase : String := "https://site.org/a/p"

/-- An ordinary two-anchor document. -/
def plainDoc : DocModel :=
  { anchors :=
      [{ href := some "x", text := "Go", titleAttr := none,
         ariaLabel := none, altAttr := none },
       { href := some "https://other.org/y", text := "Other", titleAttr := none,
         ariaLabel := none, altAttr := none }],
    citations := [], referenceLinks := [] }

end Fx

/-! ## Theorems -/

theorem storeGet_set_self {β : Type} (m : Store β) (k : String) (v : β) :
    storeGet (storeSet m k v) k = some v := by
  induction m with
  | nil => simp [storeSet, storeGet]
  | cons h t ih =>
      by_cases hk : h.1 = k
      · simp [storeSet, storeGet, hk]
      · simp [storeSet, storeGet, hk, ih]

theorem storeGet_set_ne {β : Type} (m : Store β) (k k' : String) (v : β)
    (h : k ≠ k') : storeGet (storeSet m k v) k' = storeGet m k' := by
  induction m with
  | nil => simp [storeSet, storeGet, h]
  | cons hd t ih =>
      by_cases hk : hd.1 = k
      · subst hk
        simp [storeSet, storeGet, h]
      · simp only [storeSet, if_neg hk, storeGet]
        by_cases hk' : hd.1 = k'
        · simp [hk']
        · simp [hk', ih]

/-! ### C4: dense result ids -/

theorem enum_map_fst_add_one {α : Type} (xs : List α) :
    xs.enum.map (fun p => p.1 + 1) = List.range' 1 xs.length := by
  have h1 : xs.enum.map (fun p => p.1 + 1) =
      (xs.enum.map Prod.fst).map (fun i => i + 1) := by
    rw [List.map_map]
    rfl
  rw [h1, List.enum_map_fst, List.range'_eq_map_range]
  exact List.map_congr_left fun a _ => by omega

theorem enum_map_snd_comp {α β : Type} (xs : List α) (f : α → β) :
    xs.enum.map (fun p => f p.2) = xs.map f := by
  have h1 : xs.enum.map (fun p => f p.2) = (xs.enum.map Prod.snd).map f := by
    rw [List.map_map]
    rfl
  rw [h1, List.enum_map_snd]

/-- The organic ids of any formatted result set are `1..count`. -/
theorem formatSearchResults_ids (cfg : WssConfig) (d : SearchData) :
    (WebSearchService.formatSearchResults cfg d).organic.map (fun r => r.id) =
      List.range' 1 (WebSearchService.formatSearchResults cfg d).organic.length := by
  unfold WebSearchService.formatSearchResults
  cases d.organic with
  | none => simp
  | some l =>
      simp only [List.map_map, List.length_map, List.enum_length]
      have := enum_map_fst_add_one (l.take cfg.searchResultsLimit)
      rw [← this]
      rfl

/-- C4: for a provider response with K organic results, the stored set
has exactly `min K limit` entries, their ids are the dense integers
`1..min K limit` in provider order with no gaps or repeats, and the
entries themselves are the first `min K limit` raw hits in order. -/
theorem c4_formatSearchResults_dense (cfg : WssConfig) (d : SearchData)
    (l : List RawOrganic) (h : d.organic = some l) :
    ((WebSearchService.formatSearchResults cfg d).organic.length =
        min l.length cfg.searchResultsLimit) ∧
    ((WebSearchService.formatSearchResults cfg d).organic.map (fun r => r.id) =
        List.range' 1 (min l.length cfg.searchResultsLimit)) ∧
    ((WebSearchService.formatSearchResults cfg d).organic.map (fun r => r.link) =
        (l.take cfg.searchResultsLimit).map (fun r => r.link)) := by
  have hlen : (WebSearchService.formatSearchResults cfg d).organic.length =
      min l.length cfg.searchResultsLimit := by
    unfold WebSearchService.formatSearchResults
    rw [h]
    simp only [List.length_map, List.enum_length, List.length_take]
    omega
  refine ⟨hlen, ?_, ?_⟩
  · rw [formatSearchResults_ids, hlen]
  · unfold WebSearchService.formatSearchResults
    rw [h]
    simp only [List.map_map]
    exact enum_map_snd_comp (l.take cfg.searchResultsLimit) (fun r => r.link)

/-- Witness for C4 at the concrete five-hit fixture. -/
theorem c4_witness :
    (WebSearchService.formatSearchResults Fx.cfg Fx.sdata).organic.length = 5 ∧
    (WebSearchService.formatSearchResults Fx.cfg Fx.sdata).organic.map (fun r => r.id) =
      [1, 2, 3, 4, 5] := by
  have h := c4_formatSearchResults_dense Fx.cfg Fx.sdata
    [Fx.raw 1, Fx.raw 2, Fx.raw 3, Fx.raw 4, Fx.raw 5] (by rfl)
  refine ⟨?_, ?_⟩
  · exact h.1.trans (by decide)
  · exact h.2.1.trans (by decide)

/-! ### C6: `open n` validation -/

theorem find_id_none (os : List OrganicResult) (s k : Nat)
    (h : os.map (fun r => r.id) = List.range' s k) (j : Int)
    (hj : j < (s : Int) ∨ (s : Int) + k ≤ j) :
    os.find? (fun r => (r.id : Int) = j) = none := by
  induction os generalizing s k with
  | nil => simp
  | cons o t ih =>
      cases k with
      | zero => simp at h
      | succ k' =>
          rw [List.range'_succ] at h
          simp only [List.map_cons, List.cons.injEq] at h
          have hne : ¬ ((o.id : Int) = j) := by
            rw [h.1]
            omega
          rw [List.find?_cons]
          simp only [decide_eq_false hne]
          exact ih (s + 1) k' h.2 (by push_cast; omega)

theorem find_id_mem (os : List OrganicResult) (s k : Nat)
    (h : os.map (fun r => r.id) = List.range' s k) (j : Int)
    (hj1 : (s : Int) ≤ j) (hj2 : j < (s : Int) + k) :
    ∃ r, os.find? (fun r => (r.id : Int) = j) = some r ∧ (r.id : Int) = j := by
  induction os generalizing s k with
  | nil =>
      exfalso
      have h0 : List.range' s k = [] := by simpa using h.symm
      have hk : k = 0 := by simpa using congrArg List.length h0
      omega
  | cons o t ih =>
      cases k with
      | zero => omega
      | succ k' =>
          rw [List.range'_succ] at h
          simp only [List.map_cons, List.cons.injEq] at h
          by_cases hsj : (o.id : Int) = j
          · exact ⟨o, by rw [List.find?_cons]; simp [hsj], hsj⟩
          · have hs : (s : Int) ≠ j := by rw [← h.1]; exact_mod_cast hsj
            rw [List.find?_cons]
            simp only [decide_eq_false hsj]
            exact ih (s + 1) k' h.2 (by omega) (by push_cast; omega)

/-- C6: with a stored (formatted) result set of `count` entries, `open n`
for `n` outside `1..count` replies with the not-found message and returns
the state unchanged; for `n` inside the range the lookup finds the entry
with id `n`, and — when the page fetch succeeds — the session is replaced
by `mode=browse`, `lastAction=open`, `currentUrl` the result's link,
`resultId=n`. -/
theorem c6_open_validation (cfg : WssConfig) (ext : Ext) (sender : String)
    (st : SysState) (d : SearchData)
    (hres : storeGet st.wss.currentSearchResults sender =
      some (WebSearchService.formatSearchResults cfg d)) :
    (∀ n : Int,
        n < 1 ∨ ((WebSearchService.formatSearchResults cfg d).organic.length : Int) < n →
        SearchCommandHandler.handleOpenResult cfg ext sender n st =
          (["Sorry, I couldn't find that search result. Please try searching again."], st)) ∧
    (∀ n : Int, 1 ≤ n →
        n ≤ ((WebSearchService.formatSearchResults cfg d).organic.length : Int) →
        ∃ r, WebSearchService.getSearchResultById sender n st.wss = some r ∧
          (r.id : Int) = n ∧
          ∀ c wss',
            WebSearchService.browseWebpage ext.fetch r.link sender st.wss = .ok (c, wss') →
            storeGet (SearchCommandHandler.handleOpenResult cfg ext sender n st).2.userStates sender =
              some { mode := "browse", lastAction := some "open",
                     currentUrl := some r.link, resultId := some n }) := by
  have hids := formatSearchResults_ids cfg d
  constructor
  · intro n hn
    have hnone : WebSearchService.getSearchResultById sender n st.wss = none := by
      unfold WebSearchService.getSearchResultById
      rw [hres]
      exact find_id_none _ 1 _ hids n (by push_cast; omega)
    unfold SearchCommandHandler.handleOpenResult
    rw [hnone]
  · intro n hn1 hn2
    obtain ⟨r, hfind, hid⟩ :=
      find_id_mem _ 1 _ hids n (by exact_mod_cast hn1) (by push_cast; omega)
    have hsome : WebSearchService.getSearchResultById sender n st.wss = some r := by
      unfold WebSearchService.getSearchResultById
      rw [hres]
      exact hfind
    refine ⟨r, hsome, hid, ?_⟩
    intro c wss' hbrowse
    unfold SearchCommandHandler.handleOpenResult
    rw [hsome]
    dsimp only
    rw [hbrowse]
    dsimp only
    exact storeGet_set_self st.userStates sender _

/-- Witness for C6: `open 9` is rejected without touching the state the
user reached by searching; `open 3` finds the third result and, since the
fixture fetch succeeds, sets the open-result session. -/
theorem c6_witness :
    (SearchCommandHandler.handleOpenResult Fx.cfg Fx.ext "u" 9 Fx.afterSearch =
      (["Sorry, I couldn't find that search result. Please try searching again."],
       Fx.afterSearch)) ∧
    (∃ r, WebSearchService.getSearchResultById "u" 3 Fx.afterSearch.wss = some r ∧
      (r.id : Int) = 3 ∧
      ∀ c wss',
        WebSearchService.browseWebpage Fx.ext.fetch r.link "u" Fx.afterSearch.wss = .ok (c, wss') →
        storeGet (SearchCommandHandler.handleOpenResult Fx.cfg Fx.ext "u" 3 Fx.afterSearch).2.userStates "u" =
          some { mode := "browse", lastAction := some "open",
                 currentUrl := some r.link, resultId := some 3 }) := by
  have h := c6_open_validation Fx.cfg Fx.ext "u" Fx.afterSearch Fx.sdata (by decide)
  exact ⟨h.1 9 (Or.inr (by decide)), h.2 3 (by decide) (by decide)⟩

/-! ### C5: pagination arithmetic -/

theorem lt_chunkCount_iff (L C : Nat) (hC : 0 < C) (j : Nat) :
    j < chunkCount L C ↔ C + j * C < L := by
  unfold chunkCount
  rw [Nat.lt_iff_add_one_le, Nat.le_div_iff_mul_le hC, Nat.succ_mul]
  generalize j * C = a
  omega

theorem getMoreContent_frame (cfg : WssConfig) (uid : String) (s : WssState) :
    (WebSearchService.getMoreContent cfg uid s).2.currentWebpageContent =
      s.currentWebpageContent ∧
    (WebSearchService.getMoreContent cfg uid s).2.currentSearchResults =
      s.currentSearchResults := by
  unfold WebSearchService.getMoreContent
  cases storeGet s.currentWebpageContent uid with
  | none => exact ⟨rfl, rfl⟩
  | some uc =>
      dsimp only
      refine ⟨?_, ?_⟩ <;> split <;> split <;> rfl

/-- The core trace invariant: iterated `more` calls never touch the page
content, and the cursor after `n ≥ 1` calls sits at
`C + min n K * C` (where `K` is the chunk count). -/
theorem moreIter_state (cfg : WssConfig) (uid : String) (st : WssState)
    (sc : StoredContent)
    (hc : storeGet st.currentWebpageContent uid = some sc)
    (hp : storeGet st.contentPositions uid = none)
    (hC : 0 < cfg.contentSummaryLength) :
    ∀ n : Nat,
      storeGet (moreIter cfg uid st n).currentWebpageContent uid = some sc ∧
      storeGet (moreIter cfg uid st n).contentPositions uid =
        (if n = 0 then none
         else some (cfg.contentSummaryLength +
           min n (chunkCount (strLen sc.content.fullTextContent) cfg.contentSummaryLength) *
             cfg.contentSummaryLength)) := by
  set C := cfg.contentSummaryLength with hCdef
  set L := strLen sc.content.fullTextContent with hLdef
  set K := chunkCount L C with hKdef
  intro n
  induction n with
  | zero => exact ⟨hc, by simpa using hp⟩
  | succ m ih =>
      obtain ⟨ihc, ihp⟩ := ih
      have hframe := getMoreContent_frame cfg uid (moreIter cfg uid st m)
      have hcont : storeGet (moreIter cfg uid st (m + 1)).currentWebpageContent uid = some sc := by
        show storeGet (WebSearchService.getMoreContent cfg uid (moreIter cfg uid st m)).2.currentWebpageContent uid = some sc
        rw [hframe.1]
        exact ihc
      refine ⟨hcont, ?_⟩
      show storeGet (WebSearchService.getMoreContent cfg uid (moreIter cfg uid st m)).2.contentPositions uid = _
      unfold WebSearchService.getMoreContent
      rw [ihc]
      dsimp only
      cases m with
      | zero =>
          have hhas : storeHas (moreIter cfg uid st 0).contentPositions uid = false := by
            unfold storeHas
            rw [ihp]
            rfl
          rw [hhas]
          simp only [Bool.false_eq_true, if_false]
          rw [storeGet_set_self]
          dsimp only [Option.getD]
          by_cases hL : L ≤ C
          · have hK : K = 0 := by
              by_contra hK0
              have h0 : 0 < K := Nat.pos_of_ne_zero hK0
              rw [hKdef, lt_chunkCount_iff L C hC 0] at h0
              omega
            rw [if_pos (by rw [← hLdef]; omega)]
            rw [storeGet_set_self]
            simp [hK]
          · have hK : 0 < K := by
              rw [hKdef, lt_chunkCount_iff L C hC 0]
              omega
            rw [if_neg (by rw [← hLdef]; omega)]
            dsimp only
            rw [storeGet_set_self]
            have hmin : min 1 K = 1 := Nat.min_eq_left hK
            simp [hmin]
      | succ m' =>
          set j := min (m' + 1) K with hjdef
          have hje : j ≤ K := Nat.min_le_right _ _
          have hhas : storeHas (moreIter cfg uid st (m' + 1)).contentPositions uid = true := by
            unfold storeHas
            rw [ihp]
            rfl
          rw [hhas]
          simp only [if_true]
          rw [ihp]
          simp only [if_neg (Nat.succ_ne_zero m'), Option.getD_some]
          by_cases hL : L ≤ C + j * C
          · have hjK : j = K := by
              by_contra hne
              have hlt : j < K := lt_of_le_of_ne hje hne
              rw [hKdef, lt_chunkCount_iff L C hC j] at hlt
              omega
            rw [if_pos (by rw [← hLdef]; omega)]
            rw [ihp]
            simp only [if_neg (Nat.succ_ne_zero m')]
            have hminK : min (m' + 1 + 1) K = j := by
              rw [hjK]
              exact Nat.min_eq_right (by omega)
            rw [hminK]
            simp
          · have hjlt : j < K := by
              rw [hKdef, lt_chunkCount_iff L C hC j]
              omega
            have hjm : j = m' + 1 := by
              rcases Nat.lt_or_ge (m' + 1) K with h | h
              · rw [hjdef]; exact Nat.min_eq_left (le_of_lt h)
              · exfalso
                have : j = K := by rw [hjdef]; exact Nat.min_eq_right h
                omega
            rw [if_neg (by rw [← hLdef]; omega)]
            dsimp only
            rw [storeGet_set_self]
            have hmin2 : min (m' + 1 + 1) K = j + 1 := by omega
            rw [hmin2, Nat.succ_mul]
            congr 1
            ring

theorem jsSubstring_min (s : String) (cur C : Nat) :
    jsSubstring s cur (min (cur + C) (strLen s)) = jsSubstring s cur (cur + C) := by
  unfold jsSubstring strLen
  rcases le_total (cur + C) s.data.length with h | h
  · rw [Nat.min_eq_left h]
  · rw [Nat.min_eq_right h]
    have hd : (s.data.drop cur).length = s.data.length - cur := List.length_drop cur s.data
    rw [List.take_of_length_le (by omega), List.take_of_length_le (by omega)]

theorem jsSubstring_ne_empty (s : String) (cur C : Nat)
    (h1 : cur < strLen s) (h2 : 0 < C) : jsSubstring s cur (cur + C) ≠ "" := by
  unfold jsSubstring
  intro h
  rw [String.ext_iff] at h
  have hlen : (cur + C - cur) ⊓ (s.data.drop cur).length = 0 := by
    simpa [List.length_take] using congrArg List.length h
  rw [List.length_drop] at hlen
  unfold strLen at h1
  omega

/-- The value of the `(i+1)`-st `more` call: the next `C`-sized slice of
the full text starting at offset `C + i·C`, or the empty string once the
cursor has passed the end. -/
theorem moreOut_formula (cfg : WssConfig) (uid : String) (st : WssState)
    (sc : StoredContent)
    (hc : storeGet st.currentWebpageContent uid = some sc)
    (hp : storeGet st.contentPositions uid = none)
    (hC : 0 < cfg.contentSummaryLength) :
    ∀ i : Nat,
      moreOut cfg uid st i =
        if cfg.contentSummaryLength + i * cfg.contentSummaryLength <
            strLen sc.content.fullTextContent then
          jsSubstring sc.content.fullTextContent
            (cfg.contentSummaryLength + i * cfg.contentSummaryLength)
            (cfg.contentSummaryLength + i * cfg.contentSummaryLength + cfg.contentSummaryLength)
        else "" := by
  set C := cfg.contentSummaryLength with hCdef
  set L := strLen sc.content.fullTextContent with hLdef
  set K := chunkCount L C with hKdef
  have hstate := moreIter_state cfg uid st sc hc hp hC
  intro i
  obtain ⟨ic, ip⟩ := hstate i
  unfold moreOut WebSearchService.getMoreContent
  rw [ic]
  dsimp only
  cases i with
  | zero =>
      have ip0 : storeGet (moreIter cfg uid st 0).contentPositions uid = none := by
        simpa using ip
      have hhas : storeHas (moreIter cfg uid st 0).contentPositions uid = false := by
        unfold storeHas
        rw [ip0]
        rfl
      rw [hhas]
      simp only [Bool.false_eq_true, if_false]
      rw [storeGet_set_self]
      dsimp only [Option.getD]
      by_cases hL : L ≤ C
      · rw [if_pos (by rw [← hLdef]; exact hL), if_neg (by omega)]
      · rw [if_neg (by rw [← hLdef]; exact hL), if_pos (by omega)]
        dsimp only
        rw [← hLdef, jsSubstring_min]
        congr 1 <;> omega
  | succ m =>
      rw [if_neg (Nat.succ_ne_zero m)] at ip
      have hhas : storeHas (moreIter cfg uid st (m + 1)).contentPositions uid = true := by
        unfold storeHas
        rw [ip]
        rfl
      rw [hhas]
      simp only [if_true]
      rw [ip]
      simp only [Option.getD_some]
      set j := min (m + 1) K with hjdef
      by_cases hL2 : L ≤ C + j * C
      · rw [if_pos (by rw [← hLdef]; exact hL2)]
        have hnot : ¬ (C + (m + 1) * C < L) := by
          intro hlt
          have hmK : m + 1 < K := by
            rw [hKdef, lt_chunkCount_iff L C hC (m + 1)]
            exact hlt
          have hj1 : j = m + 1 := by rw [hjdef]; exact Nat.min_eq_left (le_of_lt hmK)
          rw [hj1] at hL2
          omega
        rw [if_neg hnot]
      · have hjlt : j < K := by
          rw [hKdef, lt_chunkCount_iff L C hC j]
          omega
        have hjm : j = m + 1 := by
          rcases Nat.lt_or_ge (m + 1) K with h | h
          · rw [hjdef]; exact Nat.min_eq_left (le_of_lt h)
          · exfalso
            have : j = K := by rw [hjdef]; exact Nat.min_eq_right h
            omega
        rw [if_neg (by rw [← hLdef]; exact hL2), if_pos (by rw [← hjm]; omega)]
        dsimp only
        rw [← hLdef, jsSubstring_min, hjm]

/-- C5: starting from a stored page with no pagination cursor, successive
`getMoreContent` calls return exactly `chunkCount L C = ⌈(L − C)/C⌉`
non-empty chunks — the consecutive `C`-sized substrings of
`fullTextContent` starting at the initial offset `C` — and every later
call returns the empty string; the cursor never wraps or resets. -/
theorem c5_more_pagination (cfg : WssConfig) (uid : String) (st : WssState)
    (sc : StoredContent)
    (hc : storeGet st.currentWebpageContent uid = some sc)
    (hp : storeGet st.contentPositions uid = none)
    (hC : 0 < cfg.contentSummaryLength) :
    (∀ i : Nat,
        i < chunkCount (strLen sc.content.fullTextContent) cfg.contentSummaryLength →
        moreOut cfg uid st i =
          jsSubstring sc.content.fullTextContent
            (cfg.contentSummaryLength + i * cfg.contentSummaryLength)
            (cfg.contentSummaryLength + i * cfg.contentSummaryLength +
              cfg.contentSummaryLength) ∧
        moreOut cfg uid st i ≠ "") ∧
    (∀ i : Nat,
        chunkCount (strLen sc.content.fullTextContent) cfg.contentSummaryLength ≤ i →
        moreOut cfg uid st i = "") := by
  have hf := moreOut_formula cfg uid st sc hc hp hC
  constructor
  · intro i hi
    rw [lt_chunkCount_iff _ _ hC] at hi
    rw [hf i, if_pos hi]
    exact ⟨rfl, jsSubstring_ne_empty _ _ _ hi hC⟩
  · intro i hi
    have hnot : ¬ (cfg.contentSummaryLength + i * cfg.contentSummaryLength <
        strLen sc.content.fullTextContent) := by
      intro hlt
      rw [← lt_chunkCount_iff _ _ hC] at hlt
      omega
    rw [hf i, if_neg hnot]

/-- Witness for C5 at the fixture page (text "abcdefgh", `C = 2`): three
chunks "cd", "ef", "gh", then empty forever. -/
theorem c5_witness :
    moreOut Fx.cfg "u" Fx.afterOpen.wss 0 = "cd" ∧
    moreOut Fx.cfg "u" Fx.afterOpen.wss 1 = "ef" ∧
    moreOut Fx.cfg "u" Fx.afterOpen.wss 2 = "gh" ∧
    moreOut Fx.cfg "u" Fx.afterOpen.wss 3 = "" := by
  have h := c5_more_pagination Fx.cfg "u" Fx.afterOpen.wss
    { url := "u3", content := { Fx.page "abcdefgh" with url := "u3" } }
    (by decide) (by decide) (by decide)
  refine ⟨?_, ?_, ?_, ?_⟩
  · exact ((h.1 0 (by decide)).1).trans (by decide)
  · exact ((h.1 1 (by decide)).1).trans (by decide)
  · exact ((h.1 2 (by decide)).1).trans (by decide)
  · exact h.2 3 (by decide)

/-! ### C2: replacing the page content does not clear the cursor -/

/-- C2 (amended): a successful `browseWebpage` replaces the user's stored
`WebpageContent` but leaves the `contentPositions` map — the pagination
cursor — entirely unchanged.  The first `more` on the new page therefore
starts at the configured initial offset only when the user never
paginated before; otherwise it resumes from the leftover cursor. -/
theorem c2_browse_keeps_cursor (fetch : String → Except String Content)
    (url uid : String) (st : WssState) (c : Content) (wss' : WssState)
    (h : WebSearchService.browseWebpage fetch url uid st = .ok (c, wss')) :
    storeGet wss'.currentWebpageContent uid = some { url := url, content := c } ∧
    wss'.contentPositions = st.contentPositions ∧
    wss'.currentSearchResults = st.currentSearchResults := by
  unfold WebSearchService.browseWebpage at h
  cases hf : fetch url with
  | error e => rw [hf] at h; exact absurd h (by simp)
  | ok c0 =>
      rw [hf] at h
      dsimp only at h
      obtain ⟨hc, hw⟩ := by
        have := h
        rw [Except.ok.injEq, Prod.mk.injEq] at this
        exact this
      subst hc hw
      exact ⟨storeGet_set_self _ _ _, rfl, rfl⟩

/-- Witness for C2 (amended): the `!link 2` page view in the fixture
trace replaces the content but leaves the cursor at 4. -/
theorem c2_witness :
    storeGet Fx.afterLink.wss.currentWebpageContent "u" =
      some { url := "x2", content := { Fx.page "ABCDEFGH" with url := "x2" } } ∧
    Fx.afterLink.wss.contentPositions = Fx.afterMore.wss.contentPositions := by
  have h := c2_browse_keeps_cursor Fx.ext.fetch "x2" "u" Fx.afterMore.wss
    { Fx.page "ABCDEFGH" with url := "x2" } Fx.afterLink.wss (by rfl)
  exact ⟨h.1, h.2.1⟩

/-- C2 counterexample: the user searches, opens result 3, reads one
`more` chunk (cursor 4), then follows link 2 to a new page "ABCDEFGH";
the stored content has been replaced, but the cursor still reads 4, and
the first `more` on the new page returns "EF" — not "CD", the chunk at
the configured initial offset 2. -/
theorem c2_counterexample :
    storeGet Fx.afterLink.wss.currentWebpageContent "u" =
      some { url := "x2", content := { Fx.page "ABCDEFGH" with url := "x2" } } ∧
    storeGet Fx.afterLink.wss.contentPositions "u" = some 4 ∧
    (WebSearchService.getMoreContent Fx.cfg "u" Fx.afterLink.wss).1 = "EF" ∧
    jsSubstring "ABCDEFGH" Fx.cfg.contentSummaryLength
      (Fx.cfg.contentSummaryLength + Fx.cfg.contentSummaryLength) = "CD" ∧
    ("EF" : String) ≠ "CD" := by
  refine ⟨by decide, by decide, by decide, by decide, by decide⟩

/-! ### C1: `open` drops the stored query, so `back` cannot re-search -/

/-- C1 evaluation at the failing input: after a successful
`!search climate change` the session stores the query, but the following
valid `!open 3` replaces the session with an object that has no `query`
field; the next `!back` therefore answers "No search results available.
Please try a new search." and resets the session to chat, instead of
re-running the stored search. -/
theorem c1_open_drops_query :
    storeGet Fx.afterSearch.userStates "u" =
      some { mode := "browse", lastAction := some "search",
             query := some "climate change" } ∧
    storeGet Fx.afterOpen.userStates "u" =
      some { mode := "browse", lastAction := some "open",
             query := none, currentUrl := some "u3", resultId := some 3 } ∧
    (SearchCommandHandler.handleDirectMessage Fx.cfg Fx.ext "u" "!back" Fx.afterOpen).2.1 =
      ["No search results available. Please try a new search."] ∧
    storeGet (SearchCommandHandler.handleDirectMessage Fx.cfg Fx.ext "u" "!back" Fx.afterOpen).2.2.userStates "u" =
      some { mode := "chat" } := by
  refine ⟨by decide, by decide, by decide, by decide⟩

/-! ### C8: `exit`, then `back` -/

/-- C8 counterexample: from the fixture browse session, `!exit` resets
the session, but the immediately following `!back` does NOT reply with
the "There's no previous state to go back to." report — it replies with
the no-search-results report (the session entry still exists after
exit). -/
theorem c8_counterexample :
    (SearchCommandHandler.handleDirectMessage Fx.cfg Fx.ext "u" "!exit" Fx.afterOpen).2.1 =
      ["Exited search mode. Back to normal chat."] ∧
    (SearchCommandHandler.handleDirectMessage Fx.cfg Fx.ext "u" "!back"
        (SearchCommandHandler.handleDirectMessage Fx.cfg Fx.ext "u" "!exit" Fx.afterOpen).2.2).2.1 ≠
      ["There's no previous state to go back to."] ∧
    (SearchCommandHandler.handleDirectMessage Fx.cfg Fx.ext "u" "!back"
        (SearchCommandHandler.handleDirectMessage Fx.cfg Fx.ext "u" "!exit" Fx.afterOpen).2.2).2.1 =
      ["No search results available. Please try a new search."] := by
  refine ⟨by decide, by decide, by decide⟩

/-- C8 (amended): from any session state, `exit` resets the user's
session to `{ mode: chat }` and confirms; a `back` issued immediately
afterwards replies with the "No search results available. Please try a
new search." report (the session entry still exists, holds no
`lastAction` and no `query`) and leaves the session in chat mode. -/
theorem c8_exit_then_back (cfg : WssConfig) (ext : Ext) (sender : String)
    (args : List String) (st : SysState) :
    (SearchCommandHandler.handleCommand cfg ext sender "exit" args st).1 = true ∧
    (SearchCommandHandler.handleCommand cfg ext sender "exit" args st).2.1 =
      ["Exited search mode. Back to normal chat."] ∧
    storeGet (SearchCommandHandler.handleCommand cfg ext sender "exit" args st).2.2.userStates sender =
      some { mode := "chat" } ∧
    (SearchCommandHandler.handleCommand cfg ext sender "back" args
        (SearchCommandHandler.handleCommand cfg ext sender "exit" args st).2.2).2.1 =
      ["No search results available. Please try a new search."] ∧
    storeGet (SearchCommandHandler.handleCommand cfg ext sender "back" args
        (SearchCommandHandler.handleCommand cfg ext sender "exit" args st).2.2).2.2.userStates sender =
      some { mode := "chat" } := by
  have hexit : SearchCommandHandler.handleCommand cfg ext sender "exit" args st =
      (true, ["Exited search mode. Back to normal chat."],
       { st with userStates := storeSet st.userStates sender chatUserState }) := by
    unfold SearchCommandHandler.handleCommand
    rfl
  have hget : storeGet (storeSet st.userStates sender chatUserState) sender =
      some chatUserState := storeGet_set_self _ _ _
  have hb : SearchCommandHandler.handleBackCommand cfg ext sender
      { st with userStates := storeSet st.userStates sender chatUserState } =
      (["No search results available. Please try a new search."],
       { st with userStates :=
           storeSet (storeSet st.userStates sender chatUserState) sender chatUserState }) := by
    unfold SearchCommandHandler.handleBackCommand
    dsimp only
    rw [hget]
    dsimp only
    rw [if_neg (by decide), if_neg (by decide)]
    rfl
  have hcmd : SearchCommandHandler.handleCommand cfg ext sender "back" args
      { st with userStates := storeSet st.userStates sender chatUserState } =
      (true, ["No search results available. Please try a new search."],
       { st with userStates :=
           storeSet (storeSet st.userStates sender chatUserState) sender chatUserState }) := by
    unfold SearchCommandHandler.handleCommand
    dsimp only
    rw [if_neg (by decide), if_neg (by decide), if_pos (by decide), hb]
  rw [hexit]
  dsimp only
  rw [hcmd]
  exact ⟨rfl, rfl, hget, rfl, storeGet_set_self _ _ _⟩

/-! ### C10: `exit` leaves the service caches untouched -/

/-- C10: the `exit` command mutates only the user's session entry — the
web search service state (`currentSearchResults`, `currentWebpageContent`,
`contentPositions`) is exactly the one from before, so later `open` and
`more` calls operate on the data stored before `exit`; `clearUserContent`
is never invoked. -/
theorem c10_exit_preserves_caches (cfg : WssConfig) (ext : Ext) (sender : String)
    (args : List String) (st : SysState) :
    (SearchCommandHandler.handleCommand cfg ext sender "exit" args st).2.2.wss = st.wss ∧
    storeGet (SearchCommandHandler.handleCommand cfg ext sender "exit" args st).2.2.userStates sender =
      some { mode := "chat" } ∧
    (∀ n : Int,
      WebSearchService.getSearchResultById sender n
          (SearchCommandHandler.handleCommand cfg ext sender "exit" args st).2.2.wss =
        WebSearchService.getSearchResultById sender n st.wss) ∧
    WebSearchService.getMoreContent cfg sender
        (SearchCommandHandler.handleCommand cfg ext sender "exit" args st).2.2.wss =
      WebSearchService.getMoreContent cfg sender st.wss := by
  have hexit : SearchCommandHandler.handleCommand cfg ext sender "exit" args st =
      (true, ["Exited search mode. Back to normal chat."],
       { st with userStates := storeSet st.userStates sender chatUserState }) := by
    unfold SearchCommandHandler.handleCommand
    rfl
  rw [hexit]
  exact ⟨rfl, storeGet_set_self _ _ _, fun n => rfl, rfl⟩

/-! ### C3: the wired MessageService knows no navigation commands -/

/-- C3: in the `MessageService` that `src/index.js` wires up, the command
switch answers only help, clear, ping, provider and system; every
navigation command (search, open, back, link, more, summarize, exit),
with any arguments, falls through to the default branch and draws the
fixed Unknown-command reply, so the `SearchCommandHandler` state machine
is never reached from this message path. -/
theorem c3_nav_commands_unknown :
    (∀ c : String,
        c ∈ ["search", "open", "back", "link", "more", "summarize", "exit"] →
        (∀ args : List String, MessageService.commandCase c args = .unknown c) ∧
        MessageService.handleMessage {} ("!" ++ c) = .command (.unknown c)) ∧
    (∀ cmd : String, ∀ args : List String,
        lowerStr cmd ∉ (["help", "clear", "ping", "provider", "system"] : List String) →
        MessageService.commandCase cmd args = .unknown cmd) := by
  constructor
  · intro c hc
    fin_cases hc <;>
      exact ⟨fun args => by rfl, by rfl⟩
  · intro cmd args hno
    unfold MessageService.commandCase
    simp only [List.mem_cons, List.not_mem_nil, or_false] at hno
    push_neg at hno
    rw [if_neg hno.1, if_neg hno.2.1, if_neg hno.2.2.1, if_neg hno.2.2.2.1,
      if_neg hno.2.2.2.2]

/-- Witness for C3: the `summarize` navigation command, with arguments,
lands in the default branch through the full inbound path. -/
theorem c3_witness :
    MessageService.commandCase "summarize" ["x"] = .unknown "summarize" ∧
    MessageService.handleMessage {} "!summarize" = .command (.unknown "summarize") ∧
    MessageService.commandCase "exit" [] = .unknown "exit" := by
  have h := c3_nav_commands_unknown
  exact ⟨(h.1 "summarize" (by decide)).1 ["x"],
         (h.1 "summarize" (by decide)).2,
         h.2 "exit" [] (by decide)⟩

/-! ### C9: `link <non-numeric>` free text reaches the undefined lookup -/

/-- C9: in browse mode, free text starting with "link " whose tail parses
to `NaN` is dispatched to `handleLinkCommand` without the `isNaN` usage
check of the prefixed `link` command.  Inside `followLink`, both range
comparisons on `NaN − 1` evaluate to false, so the lookup
`links[NaN − 1]` is reached (on an `undefined` element, whose `.text`
read throws a `TypeError` that the handler catches) instead of the
"Invalid link number" range error; the prefixed path with the same
argument is stopped by its `isNaN` check. -/
theorem c9_nan_link (cfg : WssConfig) (ext : Ext) (sender msg : String)
    (st : SysState) (us : UserState) (sc : StoredContent)
    (h1 : storeGet st.userStates sender = some us)
    (h2 : us.mode = "browse")
    (h3 : storeGet st.wss.currentWebpageContent sender = some sc)
    (h4 : sc.content.links.length ≠ 0)
    (h5 : jsStartsWith msg "!" = false)
    (h6 : jsStartsWith (lowerStr msg) "link " = true)
    (h7 : parseIntJs (some (jsTrim (jsDrop msg 5))) = .nan) :
    (WebSearchService.followLink ext.fetch sender .nan st.wss =
      .undefinedLookup) ∧
    (∀ k, WebSearchService.followLink ext.fetch sender .nan st.wss ≠
      .invalidRange k) ∧
    (SearchCommandHandler.handleDirectMessage cfg ext sender msg st =
      (true,
       ["🔗 Following link #NaN...",
        "Sorry, I couldn't follow that link: Cannot read properties of undefined (reading 'text')"],
       st)) ∧
    (∀ a : String, parseIntJs (some a) = .nan →
      SearchCommandHandler.handleCommand cfg ext sender "link" [a] st =
        (true, ["Please specify a valid link number to follow. For example: !link 2"], st)) := by
  have hfl : WebSearchService.followLink ext.fetch sender .nan st.wss =
      .undefinedLookup := by
    unfold WebSearchService.followLink
    rw [h3]
    dsimp only
    rw [if_neg h4]
    rfl
  have hlk : SearchCommandHandler.handleLinkCommand cfg ext sender .nan st =
      (["🔗 Following link #NaN...",
        "Sorry, I couldn't follow that link: Cannot read properties of undefined (reading 'text')"],
       st) := by
    unfold SearchCommandHandler.handleLinkCommand
    rw [hfl]
    rfl
  have hhas : storeHas st.userStates sender = true := by
    unfold storeHas
    rw [h1]
    rfl
  have hpre : "link ".data <+: (lowerStr msg).data := by
    have h6' := h6
    unfold jsStartsWith at h6'
    exact List.isPrefixOf_iff_prefix.mp h6'
  have hlen5 : 5 ≤ (lowerStr msg).data.length := by
    obtain ⟨t, ht⟩ := hpre
    have ht' : ('l' :: 'i' :: 'n' :: 'k' :: ' ' :: t) = (lowerStr msg).data := ht
    have hl := congrArg List.length ht'
    simp only [List.length_cons] at hl
    omega
  have hne4 : ∀ s : String, s.data.length = 4 → lowerStr msg ≠ s := by
    intro s hs he
    rw [he, hs] at hlen5
    omega
  refine ⟨hfl, fun k h => by rw [hfl] at h; exact WebSearchService.LinkOutcome.noConfusion h, ?_, ?_⟩
  · unfold SearchCommandHandler.handleDirectMessage
    rw [hhas]
    simp only [if_true]
    rw [h1]
    simp only [Option.getD_some]
    rw [h5]
    simp only [Bool.false_eq_true, if_false]
    rw [if_pos h2, if_neg (hne4 "back" (by decide)), if_neg (hne4 "more" (by decide)),
      if_pos h6]
    rw [h7, hlk]
  · intro a ha
    unfold SearchCommandHandler.handleCommand
    dsimp only
    rw [if_neg (by decide), if_neg (by decide), if_neg (by decide), if_pos (by decide)]
    dsimp only [List.head?]
    rw [ha]

/-- Witness for C9: the concrete message "link abc" from the opened-page
fixture state. -/
theorem c9_witness :
    SearchCommandHandler.handleDirectMessage Fx.cfg Fx.ext "u" "link abc" Fx.afterOpen =
      (true,
       ["🔗 Following link #NaN...",
        "Sorry, I couldn't follow that link: Cannot read properties of undefined (reading 'text')"],
       Fx.afterOpen) ∧
    SearchCommandHandler.handleCommand Fx.cfg Fx.ext "u" "link" ["abc"] Fx.afterOpen =
      (true, ["Please specify a valid link number to follow. For example: !link 2"],
       Fx.afterOpen) := by
  have h := c9_nan_link Fx.cfg Fx.ext "u" "link abc" Fx.afterOpen
    { mode := "browse", lastAction := some "open", query := none,
      currentUrl := some "u3", resultId := some 3 }
    { url := "u3", content := { Fx.page "abcdefgh" with url := "u3" } }
    (by decide) (by decide) (by decide) (by decide) (by decide) (by decide) (by decide)
  exact ⟨h.2.2.1, h.2.2.2 "abc" (by decide)⟩

/-! ### C7: the link extractor's invariants -/

theorem foldl_preserve {α β : Type} (P : β → Prop) (f : β → α → β)
    (hf : ∀ s x, P s → P (f s x)) :
    ∀ (xs : List α) (s : β), P s → P (xs.foldl f s) := by
  intro xs
  induction xs with
  | nil => intro s h; exact h
  | cons x t ih => intro s h; exact ih _ (hf s x h)

/-- Every link the anchor loop appends comes from an anchor href that
passed `shouldExcludeUrl` and resolved to the stored URL. -/
theorem anchorStep_origin (resolve : String → String → Option String)
    (baseUrl : String) (s : ExtractState) (a : Anchor)
    (h : ∀ l ∈ s.links, ∃ hr, shouldExcludeUrl hr = false ∧ resolve baseUrl hr = some l.url) :
    ∀ l ∈ (anchorStep resolve baseUrl s a).links,
      ∃ hr, shouldExcludeUrl hr = false ∧ resolve baseUrl hr = some l.url := by
  unfold anchorStep
  cases a.href with
  | none => exact h
  | some href =>
      dsimp only
      by_cases he : href = ""
      · rw [if_pos he]; exact h
      rw [if_neg he]
      by_cases hex : shouldExcludeUrl href = true
      · rw [if_pos hex]; exact h
      rw [if_neg hex]
      have hex' : shouldExcludeUrl href = false := by
        simpa using hex
      cases hres : resolve baseUrl href with
      | none => exact h
      | some absoluteUrl =>
          dsimp only
          split
          · exact h
          split
          · exact h
          intro l hl
          rcases List.mem_append.mp hl with hold | hnew
          · exact h l hold
          · have : l = { text := _, url := absoluteUrl } := List.mem_singleton.mp hnew
            exact ⟨href, hex', by rw [hres, this]⟩

/-- The citation loop's appends likewise come from a filtered, resolved
raw href (the citation's external href). -/
theorem citationStep_origin (resolve : String → String → Option String)
    (baseUrl : String) (idx : Nat) (s : ExtractState) (c : CitationRef)
    (h : ∀ l ∈ s.links, ∃ hr, shouldExcludeUrl hr = false ∧ resolve baseUrl hr = some l.url) :
    ∀ l ∈ (citationStep resolve baseUrl idx s c).links,
      ∃ hr, shouldExcludeUrl hr = false ∧ resolve baseUrl hr = some l.url := by
  unfold citationStep
  cases c.linkHref with
  | none => exact h
  | some href =>
      dsimp only
      by_cases he : href = ""
      · rw [if_pos he]; exact h
      rw [if_neg he]
      cases c.externalHref with
      | none => exact h
      | some externalHref =>
          dsimp only
          by_cases he2 : externalHref = ""
          · rw [if_pos he2]; exact h
          rw [if_neg he2]
          by_cases hex : shouldExcludeUrl externalHref = true
          · rw [if_pos hex]; exact h
          rw [if_neg hex]
          have hex' : shouldExcludeUrl externalHref = false := by simpa using hex
          split
          · exact h
          cases hres : resolve baseUrl externalHref with
          | none => exact h
          | some resolved =>
              dsimp only
              intro l hl
              rcases List.mem_append.mp hl with hold | hnew
              · exact h l hold
              · have : l = { text := _, url := resolved } := List.mem_singleton.mp hnew
                exact ⟨externalHref, hex', by rw [hres, this]⟩

/-- The reference-list loop's appends likewise come from a filtered,
resolved raw href. -/
theorem referenceStep_origin (resolve : String → String → Option String)
    (baseUrl : String) (idx : Nat) (s : ExtractState) (r : RefExternal)
    (h : ∀ l ∈ s.links, ∃ hr, shouldExcludeUrl hr = false ∧ resolve baseUrl hr = some l.url) :
    ∀ l ∈ (referenceStep resolve baseUrl idx s r).links,
      ∃ hr, shouldExcludeUrl hr = false ∧ resolve baseUrl hr = some l.url := by
  unfold referenceStep
  cases r.href with
  | none => exact h
  | some href =>
      dsimp only
      by_cases he : href = ""
      · rw [if_pos he]; exact h
      rw [if_neg he]
      by_cases hex : shouldExcludeUrl href = true
      · rw [if_pos hex]; exact h
      rw [if_neg hex]
      have hex' : shouldExcludeUrl href = false := by simpa using hex
      split
      · exact h
      cases hres : resolve baseUrl href with
      | none => exact h
      | some absoluteUrl =>
          dsimp only
          split
          · exact h
          intro l hl
          rcases List.mem_append.mp hl with hold | hnew
          · exact h l hold
          · have : l = { text := _, url := absoluteUrl } := List.mem_singleton.mp hnew
            exact ⟨href, hex', by rw [hres, this]⟩

/-- Every entry `extractLinks` returns — through any of the three loops —
is the resolution of some raw href that passed the
scheme/fragment/extension filter. -/
theorem extractLinks_origin (resolve : String → String → Option String)
    (doc : DocModel) (baseUrl : String) :
    ∀ l ∈ extractLinks resolve doc baseUrl,
      ∃ hr, shouldExcludeUrl hr = false ∧ resolve baseUrl hr = some l.url := by
  unfold extractLinks
  have P0 : ∀ l ∈ ([] : List LinkEntry), ∃ hr, shouldExcludeUrl hr = false ∧
      resolve baseUrl hr = some l.url := by
    intro l hl
    exact absurd hl (List.not_mem_nil l)
  have h1 := foldl_preserve
    (fun s : ExtractState => ∀ l ∈ s.links,
      ∃ hr, shouldExcludeUrl hr = false ∧ resolve baseUrl hr = some l.url)
    (anchorStep resolve baseUrl)
    (fun s a hs => anchorStep_origin resolve baseUrl s a hs)
    doc.anchors { links := [], seenUrls := [] } P0
  split
  · exact foldl_preserve
      (fun s : ExtractState => ∀ l ∈ s.links,
        ∃ hr, shouldExcludeUrl hr = false ∧ resolve baseUrl hr = some l.url)
      _
      (fun s p hs => referenceStep_origin resolve baseUrl p.1 s p.2 hs)
      doc.referenceLinks.enum _
      (foldl_preserve
        (fun s : ExtractState => ∀ l ∈ s.links,
          ∃ hr, shouldExcludeUrl hr = false ∧ resolve baseUrl hr = some l.url)
        _
        (fun s p hs => citationStep_origin resolve baseUrl p.1 s p.2 hs)
        doc.citations.enum _ h1)
  · exact h1

/-- The anchor loop preserves the dedup invariant: every collected URL is
in `seenUrls`, and the collected URLs are pairwise distinct. -/
theorem anchorStep_dedup (resolve : String → String → Option String)
    (baseUrl : String) (s : ExtractState) (a : Anchor)
    (h1 : ∀ l ∈ s.links, l.url ∈ s.seenUrls)
    (h2 : s.links.Pairwise (fun x y => x.url ≠ y.url)) :
    (∀ l ∈ (anchorStep resolve baseUrl s a).links,
        l.url ∈ (anchorStep resolve baseUrl s a).seenUrls) ∧
    (anchorStep resolve baseUrl s a).links.Pairwise (fun x y => x.url ≠ y.url) := by
  unfold anchorStep
  cases a.href with
  | none => exact ⟨h1, h2⟩
  | some href =>
      dsimp only
      by_cases he : href = ""
      · rw [if_pos he]; exact ⟨h1, h2⟩
      rw [if_neg he]
      by_cases hex : shouldExcludeUrl href = true
      · rw [if_pos hex]; exact ⟨h1, h2⟩
      rw [if_neg hex]
      cases hres : resolve baseUrl href with
      | none => exact ⟨h1, h2⟩
      | some absoluteUrl =>
          dsimp only
          split
          · exact ⟨h1, h2⟩
          by_cases hcon : s.seenUrls.contains absoluteUrl = true
          · rw [if_pos hcon]; exact ⟨h1, h2⟩
          rw [if_neg hcon]
          have hnotmem : absoluteUrl ∉ s.seenUrls := fun hm => hcon (List.elem_iff.mpr hm)
          constructor
          · intro l hl
            rcases List.mem_append.mp hl with hold | hnew
            · exact List.mem_cons_of_mem _ (h1 l hold)
            · rw [List.mem_singleton.mp hnew]
              exact List.mem_cons_self _ _
          · rw [List.pairwise_append]
            refine ⟨h2, List.pairwise_singleton _ _, ?_⟩
            intro x hx b hb
            rw [List.mem_singleton.mp hb]
            intro hEq
            have : x.url = absoluteUrl := hEq
            exact hnotmem (this ▸ h1 x hx)

/-- For a base URL outside the Wikipedia special case, the extracted link
list contains no two entries with the same absolute URL. -/
theorem extractLinks_nowiki_dedup (resolve : String → String → Option String)
    (doc : DocModel) (baseUrl : String)
    (hw : jsIncludes baseUrl "wikipedia.org" = false) :
    (extractLinks resolve doc baseUrl).Pairwise (fun x y => x.url ≠ y.url) := by
  unfold extractLinks
  rw [hw]
  simp only [Bool.false_eq_true, if_false]
  have h := foldl_preserve
    (fun s : ExtractState => (∀ l ∈ s.links, l.url ∈ s.seenUrls) ∧
      s.links.Pairwise (fun x y => x.url ≠ y.url))
    (anchorStep resolve baseUrl)
    (fun s a hs => anchorStep_dedup resolve baseUrl s a hs.1 hs.2)
    doc.anchors { links := [], seenUrls := [] }
    ⟨fun l hl => absurd hl (List.not_mem_nil l), List.Pairwise.nil⟩
  exact h.2

/-- C7 counterexample: on a Wikipedia page whose reference list cites the
relative href "x" that an ordinary anchor also carries, the citation
special case deduplicates on the raw href (not the resolved URL) and
appends a second entry with the same absolute URL. -/
theorem c7_counterexample :
    extractLinks resolveUrlModel Fx.wikiDoc Fx.wikiBase =
      [{ text := "anchor text", url := "https://en.wikipedia.org/wiki/x" },
       { text := "cite", url := "https://en.wikipedia.org/wiki/x" }] ∧
    ¬ (extractLinks resolveUrlModel Fx.wikiDoc Fx.wikiBase).Pairwise
        (fun x y => x.url ≠ y.url) := by
  exact ⟨by decide, by decide⟩

/-! #### Suffix bookkeeping for the extension filter -/

theorem suffix_append_cases {p A B : List Char} (h : p <:+ A ++ B) :
    p <:+ B ∨ ∃ p₁, p₁ ≠ [] ∧ p = p₁ ++ B ∧ p₁ <:+ A := by
  obtain ⟨t, ht⟩ := h
  rcases le_or_lt A.length t.length with hl | hl
  · left
    have hA : A <+: t := by
      have hA3 : A <+: t ++ p := ⟨B, ht.symm⟩
      exact List.prefix_of_prefix_length_le hA3 (List.prefix_append t p) hl
    obtain ⟨t', rfl⟩ := hA
    rw [List.append_assoc] at ht
    exact ⟨t', List.append_cancel_left ht⟩
  · right
    refine ⟨A.drop t.length, ?_, ?_, List.drop_suffix _ _⟩
    · intro h0
      have := congrArg List.length h0
      simp only [List.length_drop, List.length_nil] at this
      omega
    · have hp : p = (t ++ p).drop t.length := by rw [List.drop_left]
      rw [ht, List.drop_append_of_le_length (le_of_lt hl)] at hp
      exact hp

theorem hasFilteredExt_of_suffix (e : String) (hs : String)
    (he : e ∈ fileExtensions) (hsuf : ('.' :: e.data) <:+ lowerChars hs) :
    hasFilteredExt hs = true := by
  unfold hasFilteredExt
  rw [List.any_eq_true]
  exact ⟨e, he, decide_eq_true hsuf⟩

theorem mem_of_getLast?_char {l : List Char} {c : Char} (h : l.getLast? = some c) :
    c ∈ l := by
  have h2 : l.reverse.head? = some c := by
    have hrr := List.getLast?_reverse l.reverse
    rw [List.reverse_reverse] at hrr
    exact hrr.symm.trans h
  exact List.mem_reverse.mp (List.mem_of_mem_head? (by simp [h2]))

theorem getLast?_of_suffix {p₁ X : List Char} (h : p₁ <:+ X) (hne : p₁ ≠ []) :
    X.getLast? = p₁.getLast? := by
  obtain ⟨q, rfl⟩ := h
  rw [List.getLast?_append]
  cases hq : p₁.getLast? with
  | none =>
      have hs := (List.getLast?_isSome (l := p₁)).mpr hne
      rw [hq] at hs
      exact absurd hs (by decide)
  | some v => rfl

/-- Appending after a prefix that ends in `c` (a character occurring in
no extension pattern) cannot create a filtered-extension suffix. -/
theorem hasFilteredExt_append_of_last (A : List Char) (hs : String) (c : Char)
    (hlast : A.getLast? = some c)
    (hc : ∀ e ∈ fileExtensions, Char.toLower c ∉ ('.' :: e.data))
    (hext : hasFilteredExt hs = false) :
    hasFilteredExt ⟨A ++ hs.data⟩ = false := by
  by_contra hcon
  rw [Bool.not_eq_false] at hcon
  obtain ⟨e, he, hp⟩ := List.any_eq_true.mp hcon
  have hsuf : ('.' :: e.data) <:+ (A.map Char.toLower ++ lowerChars hs) := by
    have h0 := of_decide_eq_true hp
    simpa [lowerChars, List.map_append] using h0
  rcases suffix_append_cases hsuf with hB | ⟨p₁, hp₁ne, hpe, hp₁A⟩
  · rw [hasFilteredExt_of_suffix e hs he hB] at hext
    exact absurd hext (by decide)
  · have hgl : p₁.getLast? = some (Char.toLower c) := by
      rw [← getLast?_of_suffix hp₁A hp₁ne, List.getLast?_map, hlast]
      rfl
    have hmem : Char.toLower c ∈ ('.' :: e.data) := by
      rw [hpe]
      exact List.mem_append.mpr (Or.inl (mem_of_getLast?_char hgl))
    exact hc e he hmem

/-- Appending before a string whose first character occurs in no
extension pattern cannot create a filtered-extension suffix either. -/
theorem hasFilteredExt_append_of_head (A : List Char) (hs : String) (c : Char)
    (hhead : hs.data.head? = some c)
    (hc : ∀ e ∈ fileExtensions, Char.toLower c ∉ ('.' :: e.data))
    (hext : hasFilteredExt hs = false) :
    hasFilteredExt ⟨A ++ hs.data⟩ = false := by
  by_contra hcon
  rw [Bool.not_eq_false] at hcon
  obtain ⟨e, he, hp⟩ := List.any_eq_true.mp hcon
  have hsuf : ('.' :: e.data) <:+ (A.map Char.toLower ++ lowerChars hs) := by
    have h0 := of_decide_eq_true hp
    simpa [lowerChars, List.map_append] using h0
  rcases suffix_append_cases hsuf with hB | ⟨p₁, hp₁ne, hpe, hp₁A⟩
  · rw [hasFilteredExt_of_suffix e hs he hB] at hext
    exact absurd hext (by decide)
  · have hhl : (lowerChars hs).head? = some (Char.toLower c) := by
      unfold lowerChars
      rw [List.head?_map, hhead]
      rfl
    have hmem : Char.toLower c ∈ ('.' :: e.data) := by
      rw [hpe]
      exact List.mem_append.mpr (Or.inr (List.mem_of_mem_head? (by simp [hhl])))
    exact hc e he hmem

theorem startsWithLower_false_of_head (u pre : String) (c c' : Char)
    (hu : u.data.head? = some c) (hp : pre.data.head? = some c')
    (hne : Char.toLower c ≠ c') : startsWithLower u pre = false := by
  unfold startsWithLower lowerChars
  cases hud : u.data with
  | nil => rw [hud] at hu; exact absurd hu (by simp)
  | cons a t =>
      rw [hud] at hu
      have ha : a = c := by simpa using hu
      cases hpd : pre.data with
      | nil => rw [hpd] at hp; exact absurd hp (by simp)
      | cons b sT =>
          rw [hpd] at hp
          have hb : b = c' := by simpa using hp
          subst ha hb
          simp only [List.map_cons, List.isPrefixOf]
          rw [Bool.and_eq_false_iff]
          left
          exact beq_eq_false_iff_ne.mpr (Ne.symm hne)

theorem jsStartsWith_false_of_head (u pre : String) (c c' : Char)
    (hu : u.data.head? = some c) (hp : pre.data.head? = some c')
    (hne : c ≠ c') : jsStartsWith u pre = false := by
  unfold jsStartsWith
  cases hud : u.data with
  | nil => rw [hud] at hu; exact absurd hu (by simp)
  | cons a t =>
      rw [hud] at hu
      have ha : a = c := by simpa using hu
      cases hpd : pre.data with
      | nil => rw [hpd] at hp; exact absurd hp (by simp)
      | cons b sT =>
          rw [hpd] at hp
          have hb : b = c' := by simpa using hp
          subst ha hb
          simp only [List.isPrefixOf]
          rw [Bool.and_eq_false_iff]
          left
          exact beq_eq_false_iff_ne.mpr (Ne.symm hne)

theorem head?_dropWhile_slash (l : List Char) (hl : '/' ∈ l) :
    (l.dropWhile (fun c => c ≠ '/')).head? = some '/' := by
  induction l with
  | nil => exact absurd hl (List.not_mem_nil _)
  | cons a t ih =>
      rw [List.dropWhile_cons]
      by_cases ha : a = '/'
      · subst ha
        simp
      · rw [if_pos (by simpa using ha)]
        refine ih ?_
        rcases List.mem_cons.mp hl with h | h
        · exact absurd h.symm ha
        · exact h

theorem dropAfterLastSlash_getLast (l : List Char) (h : '/' ∈ l) :
    (dropAfterLastSlash l).getLast? = some '/' := by
  unfold dropAfterLastSlash
  rw [List.getLast?_reverse]
  exact head?_dropWhile_slash _ (List.mem_reverse.mpr h)

theorem drop_takeWhile_head (l : List Char) :
    l.drop (l.takeWhile (fun c => c ≠ '/')).length = [] ∨
    (l.drop (l.takeWhile (fun c => c ≠ '/')).length).head? = some '/' := by
  induction l with
  | nil => left; rfl
  | cons a t ih =>
      rw [List.takeWhile_cons]
      by_cases ha : a = '/'
      · right
        subst ha
        simp
      · rw [if_pos (by simpa using ha)]
        simpa [List.length_cons, List.drop_succ_cons] using ih

theorem hasUrlScheme_head (h : String) (hs : hasUrlScheme h = true) :
    ∃ c, h.data.head? = some c ∧ c.isAlpha = true := by
  unfold hasUrlScheme at hs
  cases hd : h.data with
  | nil =>
      rw [hd] at hs
      exact absurd hs (by decide)
  | cons a t =>
      rw [hd] at hs
      rw [List.takeWhile_cons] at hs
      by_cases ha : a = ':'
      · rw [if_neg (by simpa using ha)] at hs
        exact absurd hs (by simp)
      · rw [if_pos (by simpa using ha)] at hs
        dsimp only at hs
        rw [Bool.and_eq_true, Bool.and_eq_true] at hs
        exact ⟨a, rfl, hs.2.1⟩

/-- The URL `⟨A ++ t⟩` for a prefix `A` starting with the letter h is not
javascript-, mailto- or fragment-prefixed, and is non-empty. -/
theorem appended_url_props (A : List Char) (t : List Char)
    (hAhead : A.head? = some 'h') :
    startsWithLower ⟨A ++ t⟩ "javascript:" = false ∧
    startsWithLower ⟨A ++ t⟩ "mailto:" = false ∧
    jsStartsWith ⟨A ++ t⟩ "#" = false ∧
    (⟨A ++ t⟩ : String) ≠ "" := by
  have hu : (⟨A ++ t⟩ : String).data.head? = some 'h' := by
    show (A ++ t).head? = _
    rw [List.head?_append, hAhead]
    rfl
  refine ⟨startsWithLower_false_of_head _ _ 'h' 'j' hu (by decide) (by decide),
          startsWithLower_false_of_head _ _ 'h' 'm' hu (by decide) (by decide),
          jsStartsWith_false_of_head _ _ 'h' '#' hu (by decide) (by decide),
          ?_⟩
  intro he
  have h0 : (A ++ t) = [] := by
    rw [String.ext_iff] at he
    exact he
  rw [h0] at hu
  exact absurd hu (by decide)

/-- Unpack `shouldExcludeUrl url = false` into its component filters. -/
theorem shouldExcludeUrl_false (url : String) (hf : shouldExcludeUrl url = false) :
    url ≠ "" ∧ startsWithLower url "javascript:" = false ∧
    startsWithLower url "mailto:" = false ∧ startsWithLower url "tel:" = false ∧
    startsWithLower url "sms:" = false ∧ url ≠ "#" ∧
    startsWithLower url "data:" = false ∧ startsWithLower url "blob:" = false ∧
    hasFilteredExt url = false := by
  unfold shouldExcludeUrl at hf
  split_ifs at hf with h1 h2 h3 h4 h5 h6 h7 h8
  all_goals first
    | exact absurd hf (by decide)
    | exact ⟨h1, by simpa using h2, by simpa using h3, by simpa using h4,
        by simpa using h5, h6, by simpa using h7, by simpa using h8, hf⟩

theorem basePath_head (base : String) (sch : List Char) :
    basePath base sch = [] ∨ (basePath base sch).head? = some '/' :=
  drop_takeWhile_head (baseRest base sch)

theorem baseDir_getLast (base : String) (sch : List Char) :
    (baseDir base sch).getLast? = some '/' := by
  unfold baseDir
  rcases basePath_head base sch with h | h
  · rw [if_pos h]
    rfl
  · have hne : basePath base sch ≠ [] := by
      intro h0
      rw [h0] at h
      exact absurd h (by simp)
    rw [if_neg hne]
    exact dropAfterLastSlash_getLast _ (List.mem_of_mem_head? (by simp [h]))

/-- Any URL the resolver model returns for an href that passed the
filter is itself clean: no filtered extension, no javascript:/mailto:
prefix, not fragment-prefixed, non-empty. -/
theorem resolveUrlModel_safe (base h u : String)
    (hh : shouldExcludeUrl h = false)
    (hr : resolveUrlModel base h = some u) :
    hasFilteredExt u = false ∧
    startsWithLower u "javascript:" = false ∧
    startsWithLower u "mailto:" = false ∧
    jsStartsWith u "#" = false ∧
    u ≠ "" := by
  obtain ⟨hne, hjs, hml, htel, hsms, hhash, hdata, hblob, hextf⟩ :=
    shouldExcludeUrl_false h hh
  unfold resolveUrlModel at hr
  rw [if_neg hne] at hr
  by_cases hsch : hasUrlScheme h = true
  · rw [if_pos hsch] at hr
    obtain rfl := Option.some.inj hr
    obtain ⟨c, hc, hal⟩ := hasUrlScheme_head h hsch
    refine ⟨hextf, hjs, hml, ?_, hne⟩
    refine jsStartsWith_false_of_head _ _ c '#' hc (by decide) ?_
    intro he
    rw [he] at hal
    exact absurd hal (by decide)
  · rw [if_neg hsch] at hr
    cases hsp : schemeHttpPrefix ((stripFragment base).data) with
    | none =>
        rw [hsp] at hr
        exact absurd hr (by simp)
    | some sch =>
        rw [hsp] at hr
        dsimp only at hr
        have hb : (sch = "https://".data ∧
            List.isPrefixOf ("https://".data) ((stripFragment base).data) = true) ∨
            (sch = "http://".data ∧
            List.isPrefixOf ("http://".data) ((stripFragment base).data) = true) := by
          unfold schemeHttpPrefix at hsp
          split_ifs at hsp with hp1 hp2
          · exact Or.inl ⟨(by simpa using hsp.symm), hp1⟩
          · exact Or.inr ⟨(by simpa using hsp.symm), hp2⟩
        have hbhead : ((stripFragment base).data).head? = some 'h' := by
          rcases hb with ⟨hx, hpre⟩ | ⟨hx, hpre⟩ <;>
            (obtain ⟨t2, ht2⟩ := List.isPrefixOf_iff_prefix.mp hpre
             rw [← ht2, List.head?_append]
             rfl)
        have hschhead : sch.head? = some 'h' := by
          rcases hb with ⟨rfl, hx⟩ | ⟨rfl, hx⟩ <;> rfl
        by_cases h2s : List.isPrefixOf ['/', '/'] h.data = true
        · rw [if_pos h2s] at hr
          obtain rfl := Option.some.inj hr
          have hAhead : (sch.takeWhile (fun c => c ≠ ':') ++ [':']).head? = some 'h' := by
            rcases hb with ⟨rfl, hx⟩ | ⟨rfl, hx⟩ <;> rfl
          have hAlast : (sch.takeWhile (fun c => c ≠ ':') ++ [':']).getLast? = some ':' := by
            rw [List.getLast?_append]
            rfl
          have hprops := appended_url_props (sch.takeWhile (fun c => c ≠ ':') ++ [':']) h.data hAhead
          exact ⟨hasFilteredExt_append_of_last _ h ':' hAlast (by decide) hextf,
                 hprops.1, hprops.2.1, hprops.2.2.1, hprops.2.2.2⟩
        · rw [if_neg h2s] at hr
          by_cases hfr : List.isPrefixOf ['#'] h.data = true
          · rw [if_pos hfr] at hr
            obtain rfl := Option.some.inj hr
            have hhd : h.data.head? = some '#' := by
              obtain ⟨t2, ht2⟩ := List.isPrefixOf_iff_prefix.mp hfr
              rw [← ht2]
              rfl
            have hprops := appended_url_props ((stripFragment base).data) h.data hbhead
            exact ⟨hasFilteredExt_append_of_head _ h '#' hhd (by decide) hextf,
                   hprops.1, hprops.2.1, hprops.2.2.1, hprops.2.2.2⟩
          · rw [if_neg hfr] at hr
            by_cases hro : List.isPrefixOf ['/'] h.data = true
            · rw [if_pos hro] at hr
              obtain rfl := Option.some.inj hr
              have hhd : h.data.head? = some '/' := by
                obtain ⟨t2, ht2⟩ := List.isPrefixOf_iff_prefix.mp hro
                rw [← ht2]
                rfl
              have hAhead : (sch ++ baseHost base sch).head? = some 'h' := by
                rw [List.head?_append, hschhead]
                rfl
              have hprops := appended_url_props (sch ++ baseHost base sch) h.data hAhead
              exact ⟨hasFilteredExt_append_of_head _ h '/' hhd (by decide) hextf,
                     hprops.1, hprops.2.1, hprops.2.2.1, hprops.2.2.2⟩
            · rw [if_neg hro] at hr
              obtain rfl := Option.some.inj hr
              have hAhead : (sch ++ baseHost base sch ++ baseDir base sch).head? = some 'h' := by
                rw [List.append_assoc, List.head?_append, hschhead]
                rfl
              have hAlast : (sch ++ baseHost base sch ++ baseDir base sch).getLast? = some '/' := by
                rw [List.getLast?_append, baseDir_getLast]
                rfl
              have hprops := appended_url_props (sch ++ baseHost base sch ++ baseDir base sch) h.data hAhead
              exact ⟨hasFilteredExt_append_of_last _ h '/' hAlast (by decide) hextf,
                     hprops.1, hprops.2.1, hprops.2.2.1, hprops.2.2.2⟩

/-- C7 (amended): with standard URL resolution, every entry
`extractLinks` returns is the resolution of a raw href that passed the
scheme/fragment/extension filter, so no entry's URL is
javascript:/mailto:-prefixed, a fragment reference, empty, or ending in
a filtered file extension.  No two entries share an absolute URL when
the base URL is not a Wikipedia page; the Wikipedia citation special
case deduplicates on the raw citation href rather than the resolved URL
and can therefore duplicate an earlier entry's URL
(`c7_counterexample`). -/
theorem c7_extract_links (doc : DocModel) (baseUrl : String) :
    (jsIncludes baseUrl "wikipedia.org" = false →
      (extractLinks resolveUrlModel doc baseUrl).Pairwise (fun x y => x.url ≠ y.url)) ∧
    (∀ l ∈ extractLinks resolveUrlModel doc baseUrl,
      ∃ hr, shouldExcludeUrl hr = false ∧ resolveUrlModel baseUrl hr = some l.url) ∧
    (∀ l ∈ extractLinks resolveUrlModel doc baseUrl,
      hasFilteredExt l.url = false ∧
      startsWithLower l.url "javascript:" = false ∧
      startsWithLower l.url "mailto:" = false ∧
      jsStartsWith l.url "#" = false ∧
      l.url ≠ "") := by
  refine ⟨fun hw => extractLinks_nowiki_dedup _ doc baseUrl hw,
          extractLinks_origin _ doc baseUrl, ?_⟩
  intro l hl
  obtain ⟨hr, hex, hres⟩ := extractLinks_origin resolveUrlModel doc baseUrl l hl
  exact resolveUrlModel_safe baseUrl hr l.url hex hres

/-- Witness for C7 at a concrete non-Wikipedia document: the extracted
list is duplicate-free and its first entry is clean. -/
theorem c7_witness :
    (extractLinks resolveUrlModel Fx.plainDoc Fx.plainBase).Pairwise
      (fun x y => x.url ≠ y.url) ∧
    hasFilteredExt
      ((extractLinks resolveUrlModel Fx.plainDoc Fx.plainBase).headD
        { text := "", url := "" }).url = false ∧
    jsStartsWith
      ((extractLinks resolveUrlModel Fx.plainDoc Fx.plainBase).headD
        { text := "", url := "" }).url "#" = false := by
  have h := c7_extract_links Fx.plainDoc Fx.plainBase
  refine ⟨h.1 (by decide), ?_, ?_⟩
  · exact (h.2.2 _ (by decide)).1
  · exact (h.2.2 _ (by decide)).2.2.2.1

end WahGPT
